import Mathlib

/-!
Verification development for the GitQuest core: commit analyzer, seeded
procedural composer, narrative fallback producer and the story state machine.

The JavaScript source is shallowly embedded:
* JS numbers are modelled as `ℚ` (all values produced by the embedded code are
  rational; no claim depends on binary floating-point rounding), with integral
  quantities kept as `Int`/`Nat`.
* JS 32-bit bitwise semantics (`^`, `>>> 0`, `%` on possibly negative ints)
  are modelled explicitly (`toInt32`, `toUInt32n`, `jsXor`, `Int.tmod`).
* `Math.random()` results are passed in as explicit rational parameters.
* `Date.now()` results are passed in as explicit `Int` timestamps.
-/

set_option maxHeartbeats 1000000
set_option maxRecDepth 8000

namespace GitQuest

/-- ToUint32 abstract operation (`x >>> 0`): the unsigned 32-bit value. -/
def toUInt32n (n : Int) : Nat := (n.emod 4294967296).toNat

/-- ToInt32 abstract operation: wrap an integer into [-2^31, 2^31). -/
def toInt32 (n : Int) : Int := (n + 2147483648).emod 4294967296 - 2147483648

/-- JS `a ^ b`: both operands pass through ToInt32, bits are xor-ed, the
result is read back as a signed 32-bit integer. -/
def jsXor (a b : Int) : Int := toInt32 (Int.ofNat ((toUInt32n a) ^^^ (toUInt32n b)))

/-- JS `Math.round`: floor of x + 1/2. -/
def jsRound (q : ℚ) : Int := ⌊q + 1/2⌋

/-- Value of one hexadecimal digit character, if any. -/
def hexDigitVal (c : Char) : Option Nat :=
  if '0' ≤ c ∧ c ≤ '9' then some (c.toNat - 48)
  else if 'a' ≤ c ∧ c ≤ 'f' then some (c.toNat - 87)
  else if 'A' ≤ c ∧ c ≤ 'F' then some (c.toNat - 55)
  else none

/-- JS `parseInt(s, 16)` restricted to the shapes that occur here (a slice of
a commit SHA): the longest leading run of hex digits is parsed; `none` models
the NaN result when no digit leads the string. -/
def parseIntHex (s : String) : Option Nat :=
  let ds := s.toList.takeWhile (fun c => (hexDigitVal c).isSome)
  if ds.isEmpty then none
  else some (ds.foldl (fun acc c => acc * 16 + ((hexDigitVal c).getD 0)) 0)

/-- Does `pat` occur as a contiguous run inside the character list? -/
def charsContain (pat : List Char) : List Char → Bool
  | [] => pat.isEmpty
  | c :: cs => pat.isPrefixOf (c :: cs) || charsContain pat cs

/-- JS `haystack.includes(needle)` / a single-literal regex test. -/
def containsStr (s pat : String) : Bool := charsContain pat.toList s.toList

/-- JS regex `/v\d/` test: some position holds a letter v followed by a digit. -/
def hasVDigit (s : String) : Bool :=
  (s.toList.zip s.toList.tail).any (fun p => p.1 == 'v' && p.2.isDigit)

/-- JS array indexing `arr[i]` with an `Int` index: `none` models `undefined`. -/
def jsArrayGet {α : Type} (l : List α) (i : Int) : Option α :=
  if h : 0 ≤ i ∧ i.toNat < l.length then some (l.get ⟨i.toNat, h.2⟩) else none

/-! ## Commit records (github.js `parseCommit` output shape)

The `author` sub-object is flattened into `authorName`/`authorLogin`/
`authorAvatar`; the `date` field (a JS `Date`) carries the same instant as
`timestamp` and is re-materialised when serializing. `hour` comes from
`Date.prototype.getHours` and is therefore in 0..23 (`Fin 24`). -/

structure CommitRecord where
  sha : String
  shortSha : String
  message : String
  subject : String
  body : String
  authorName : String
  authorLogin : Option String
  authorAvatar : Option String
  hour : Fin 24
  dayOfWeek : Nat
  timestamp : Int
deriving Repr, DecidableEq

/-! ## Commit analyzer (github.js `analyzeCommits`) -/

structure MusicParams where
  bpm : Int
  voices : Nat
  mode : String
  complexity : ℚ
  energy : ℚ
deriving Repr, DecidableEq

structure CommitAnalysis where
  totalCommits : Nat
  authors : List String
  authorCount : Nat
  peakHour : Nat
  avgMsgLen : ℚ
  fixRatio : ℚ
  featRatio : ℚ
  refactorRatio : ℚ
  commitsPerDay : ℚ
  daySpan : ℚ
  hashSeed : Int
  music : MusicParams
deriving Repr, DecidableEq

/-- JS `[...new Set(xs)]`: deduplicate keeping first-insertion order. -/
def jsSetDedup (l : List String) : List String :=
  l.foldl (fun acc x => if x ∈ acc then acc else acc ++ [x]) []

/-- Regex `/fix|bug|patch|hotfix/i` on a subject line. -/
def fixPatternTest (s : String) : Bool :=
  let t := s.toLower
  containsStr t "fix" || containsStr t "bug" || containsStr t "patch" || containsStr t "hotfix"

/-- Regex `/feat|add|new|implement/i` on a subject line. -/
def featPatternTest (s : String) : Bool :=
  let t := s.toLower
  containsStr t "feat" || containsStr t "add" || containsStr t "new" || containsStr t "implement"

/-- Regex `/refactor|clean|improve|update/i` on a subject line. -/
def refactorPatternTest (s : String) : Bool :=
  let t := s.toLower
  containsStr t "refactor" || containsStr t "clean" || containsStr t "improve" || containsStr t "update"

/-- One step of the hash seed fold: `acc ^ parseInt(c.sha.slice(0, 8), 16)`
with JS `^` semantics; a NaN parse contributes 0 (ToInt32(NaN) = 0). -/
def hashSeedStep (acc : Int) (c : CommitRecord) : Int :=
  jsXor acc (match parseIntHex (c.sha.take 8) with
    | some n => Int.ofNat n
    | none => 0)

/-- The hash seed of `analyzeCommits`: XOR-fold over the first five commits,
starting from 0. -/
def hashSeedOf (commits : List CommitRecord) : Int :=
  (commits.take 5).foldl hashSeedStep 0

/-- github.js `analyzeCommits`: `null` (here `none`) on an empty list,
otherwise the derived statistics and music parameters. -/
def analyzeCommits (commits : List CommitRecord) : Option CommitAnalysis :=
  match commits with
  | [] => none
  | c0 :: _ =>
    let totalCommits := commits.length
    let authors := jsSetDedup (commits.map (·.authorName))
    let hourCounts :=
      commits.foldl (fun hc c => hc.set c.hour.val ((hc.getD c.hour.val 0) + 1))
        (List.replicate 24 0)
    let peakHour := hourCounts.indexOf (hourCounts.foldl max 0)
    let avgMsgLen : ℚ := ((commits.foldl (fun s c => s + c.subject.length) 0 : Nat) : ℚ) / totalCommits
    let fixCount := (commits.filter (fun c => fixPatternTest c.subject)).length
    let featCount := (commits.filter (fun c => featPatternTest c.subject)).length
    let refactorCount := (commits.filter (fun c => refactorPatternTest c.subject)).length
    let oldest := (commits.getLastD c0).timestamp
    let newest := c0.timestamp
    let daySpan : ℚ := max 1 (((newest - oldest : Int) : ℚ) / 86400000)
    let commitsPerDay : ℚ := (totalCommits : ℚ) / daySpan
    some {
      totalCommits := totalCommits
      authors := authors
      authorCount := authors.length
      peakHour := peakHour
      avgMsgLen := avgMsgLen
      fixRatio := (fixCount : ℚ) / totalCommits
      featRatio := (featCount : ℚ) / totalCommits
      refactorRatio := (refactorCount : ℚ) / totalCommits
      commitsPerDay := commitsPerDay
      daySpan := daySpan
      hashSeed := hashSeedOf commits
      music := {
        bpm := jsRound (60 + min 80 (commitsPerDay * 8))
        voices := min 4 (max 1 authors.length)
        mode := if 6 ≤ peakHour ∧ peakHour ≤ 18 then "major" else "minor"
        complexity := min 1 ((((fixCount + refactorCount : Nat)) : ℚ) / (max 1 (totalCommits : ℚ)) * 3)
        energy := min 1 (commitsPerDay / 10) } }

/-! ## Seeded RNG (music-engine.js `SeededRNG`) -/

/-- One LCG advance: `(seed * 1664525 + 1013904223) >>> 0`. -/
def lcgNext (s : Nat) : Nat := (s * 1664525 + 1013904223) % 4294967296

/-- Generator state after `n` calls to `next()` starting from the
constructor argument `seed` (the constructor applies `seed >>> 0`). -/
def seededState (seed : Int) : Nat → Nat
  | 0 => toUInt32n seed
  | n + 1 => lcgNext (seededState seed n)

/-- Value returned by the n-th `next()` call (n ≥ 1): `this.seed / 0xFFFFFFFF`
after the advance. -/
def seededNextVal (seed : Int) (n : Nat) : ℚ := (seededState seed n : ℚ) / 4294967295

/-! ## Root pitch selection (music-engine.js `init`) -/

/-- The fixed 12-tone chromatic root list. -/
def ROOTS : List String :=
  ["C", "C#", "D", "D#", "E", "F"] ++ ["F#", "G", "G#", "A", "A#", "B"]

/-- music-engine.js: `const rootIdx = analysis.hashSeed % 12`. JS `%` keeps
the sign of the dividend, i.e. it is `Int.tmod`. -/
def musicRootIdx (a : CommitAnalysis) : Int := Int.tmod a.hashSeed 12

/-- music-engine.js: `const root = ROOTS[rootIdx]`; `none` models `undefined`. -/
def musicRoot (a : CommitAnalysis) : Option String := jsArrayGet ROOTS (musicRootIdx a)

/-! ## Claims C1, C9, C10 -/

/-- C1: `analyzeCommits` is a pure deterministic function: on identical
non-empty input sequences it returns an analysis (not `null`) and the two
results are bit-identical, in particular the `hashSeed` and the derived
music parameters `bpm`, `voices`, `mode`, `complexity`, `energy` agree. -/
theorem analyzeCommits_deterministic (cs₁ cs₂ : List CommitRecord)
    (heq : cs₁ = cs₂) (hne : cs₁ ≠ []) :
    analyzeCommits cs₁ = analyzeCommits cs₂ ∧
    (analyzeCommits cs₁).isSome = true ∧
    (analyzeCommits cs₁).map (·.hashSeed) = (analyzeCommits cs₂).map (·.hashSeed) ∧
    (analyzeCommits cs₁).map (·.music.bpm) = (analyzeCommits cs₂).map (·.music.bpm) ∧
    (analyzeCommits cs₁).map (·.music.voices) = (analyzeCommits cs₂).map (·.music.voices) ∧
    (analyzeCommits cs₁).map (·.music.mode) = (analyzeCommits cs₂).map (·.music.mode) ∧
    (analyzeCommits cs₁).map (·.music.complexity) = (analyzeCommits cs₂).map (·.music.complexity) ∧
    (analyzeCommits cs₁).map (·.music.energy) = (analyzeCommits cs₂).map (·.music.energy) := by
  subst heq
  refine ⟨rfl, ?_, rfl, rfl, rfl, rfl, rfl, rfl⟩
  cases cs₁ with
  | nil => exact absurd rfl hne
  | cons c cs => rfl

/-- A concrete commit fixture. -/
def wCommitA : CommitRecord :=
  { sha := "0123456789abcdef0123456789abcdef01234567", shortSha := "0123456",
    message := "fix: a bug", subject := "fix: a bug", body := "",
    authorName := "alice", authorLogin := none, authorAvatar := none,
    hour := 12, dayOfWeek := 1, timestamp := 1700000000000 }

/-- Witness for C1 at a concrete one-commit list. -/
theorem analyzeCommits_deterministic_witness :
    ([wCommitA] = [wCommitA] ∧ [wCommitA] ≠ ([] : List CommitRecord)) ∧
    (analyzeCommits [wCommitA]).isSome = true :=
  ⟨⟨rfl, by simp⟩,
    (analyzeCommits_deterministic [wCommitA] [wCommitA] rfl (by simp)).2.1⟩

/-- C10 counterexample: the constructor seed 653637408 advances to state
0xFFFFFFFF, so the very first `next()` returns exactly 1 — the claimed
strict bound `< 1` is violated. -/
theorem seededNext_one_counterexample :
    seededNextVal 653637408 1 = 1 ∧ ¬ (seededNextVal 653637408 1 < 1) := by
  have hs : seededState 653637408 1 = 4294967295 := by decide
  constructor
  · simp only [seededNextVal, hs]; norm_num
  · simp only [seededNextVal, hs]; norm_num

/-- Every generator state is an unsigned 32-bit value. -/
lemma seededState_lt (seed : Int) (n : Nat) : seededState seed n < 4294967296 := by
  cases n with
  | zero =>
    have h1 : (0:Int) ≤ seed.emod 4294967296 := Int.emod_nonneg _ (by norm_num)
    have h2 : seed.emod 4294967296 < 4294967296 := Int.emod_lt_of_pos _ (by norm_num)
    simp only [seededState, toUInt32n]
    omega
  | succ n =>
    simp only [seededState, lcgNext]
    exact Nat.mod_lt _ (by norm_num)

/-- C10 (amended): every `next()` value lies in [0, 1].  The strict upper
bound `< 1` of the claim fails — state 0xFFFFFFFF yields exactly 1 (see the
counterexample) — but 1 is never exceeded, and 0 is a correct lower bound. -/
theorem seededNext_range (seed : Int) (n : Nat) :
    0 ≤ seededNextVal seed n ∧ seededNextVal seed n ≤ 1 := by
  constructor
  · exact div_nonneg (Nat.cast_nonneg _) (by norm_num)
  · have h := seededState_lt seed n
    have h2 : seededState seed n ≤ 4294967295 := by omega
    rw [seededNextVal, div_le_one (by norm_num)]
    exact_mod_cast h2

/-- A commit whose SHA starts with the hex digits f0000000. -/
def cexCommitC9 : CommitRecord :=
  { sha := "f00000000000000000000000000000000000000a", shortSha := "f000000",
    message := "feat: dark corner", subject := "feat: dark corner", body := "",
    authorName := "mallory", authorLogin := none, authorAvatar := none,
    hour := 3, dayOfWeek := 2, timestamp := 1690000000000 }

/-- C9 counterexample: for a commit list whose first SHA begins f0000000,
`parseInt` gives 0xF0000000; JS `^` reads it back as the signed 32-bit value
-268435456, so `hashSeed % 12 = -4`: not a valid index in 0..11, and
`ROOTS[-4]` is `undefined` — the selected root pitch class is not defined. -/
theorem musicRoot_counterexample :
    (analyzeCommits [cexCommitC9]).map musicRootIdx = some (-4) ∧
    (analyzeCommits [cexCommitC9]).map musicRoot = some none := by
  constructor
  · decide
  · decide

/-- A ToInt32 result is in the signed 32-bit range. -/
lemma toInt32_range (n : Int) : -2147483648 ≤ toInt32 n ∧ toInt32 n < 2147483648 := by
  have h1 : (0:Int) ≤ (n + 2147483648).emod 4294967296 := Int.emod_nonneg _ (by norm_num)
  have h2 : (n + 2147483648).emod 4294967296 < 4294967296 :=
    Int.emod_lt_of_pos _ (by norm_num)
  simp only [toInt32]; omega

/-- Each hash seed fold step is in the signed 32-bit range. -/
lemma hashSeedStep_range (acc : Int) (c : CommitRecord) :
    -2147483648 ≤ hashSeedStep acc c ∧ hashSeedStep acc c < 2147483648 :=
  toInt32_range _

/-- Folding `hashSeedStep` from any 32-bit start stays in the 32-bit range. -/
lemma foldl_hashSeedStep_range (l : List CommitRecord) (acc : Int)
    (h1 : -2147483648 ≤ acc) (h2 : acc < 2147483648) :
    -2147483648 ≤ l.foldl hashSeedStep acc ∧ l.foldl hashSeedStep acc < 2147483648 := by
  induction l generalizing acc with
  | nil => exact ⟨h1, h2⟩
  | cons c cs ih =>
    rw [List.foldl_cons]
    exact ih (hashSeedStep acc c) (hashSeedStep_range acc c).1 (hashSeedStep_range acc c).2

/-- The hash seed is always in the signed 32-bit range. -/
lemma hashSeedOf_range (commits : List CommitRecord) :
    -2147483648 ≤ hashSeedOf commits ∧ hashSeedOf commits < 2147483648 :=
  foldl_hashSeedStep_range _ 0 (by norm_num) (by norm_num)

/-- The hashSeed field of a successful analysis is the hash seed fold. -/
lemma analyzeCommits_hashSeed (commits : List CommitRecord) (a : CommitAnalysis)
    (h : analyzeCommits commits = some a) : a.hashSeed = hashSeedOf commits := by
  cases commits with
  | nil => simp [analyzeCommits] at h
  | cons c cs =>
    simp only [analyzeCommits, Option.some.injEq] at h
    subst h
    simp

/-- C9 (amended): the analyzer's hashSeed is a signed 32-bit value that can
be negative (JS `^` yields Int32); when it is negative the JS root index
`hashSeed % 12` is negative and `ROOTS[rootIdx]` is undefined (see the
counterexample).  Whenever the hashSeed is non-negative, `hashSeed % 12` is
a valid index in 0..11 and the Composer's root pitch class is defined. -/
theorem musicRoot_valid_of_nonneg (commits : List CommitRecord) (a : CommitAnalysis)
    (h : analyzeCommits commits = some a) (hpos : 0 ≤ a.hashSeed) :
    (-2147483648 ≤ a.hashSeed ∧ a.hashSeed < 2147483648) ∧
    0 ≤ musicRootIdx a ∧ musicRootIdx a < 12 ∧ (musicRoot a).isSome = true := by
  have hrange : -2147483648 ≤ a.hashSeed ∧ a.hashSeed < 2147483648 := by
    rw [analyzeCommits_hashSeed commits a h]
    exact hashSeedOf_range commits
  have h0 : 0 ≤ musicRootIdx a := Int.tmod_nonneg _ hpos
  have h12 : musicRootIdx a < 12 := Int.tmod_lt_of_pos _ (by norm_num)
  refine ⟨hrange, h0, h12, ?_⟩
  rw [musicRoot, jsArrayGet, dif_pos ⟨h0, by simp [ROOTS]; omega⟩]
  rfl

/-- A commit whose SHA starts with the hex digits 00000001. -/
def wCommitC9 : CommitRecord :=
  { sha := "000000010000000000000000000000000000000a", shortSha := "0000000",
    message := "docs: notes", subject := "docs: notes", body := "",
    authorName := "carol", authorLogin := none, authorAvatar := none,
    hour := 9, dayOfWeek := 4, timestamp := 1680000000000 }

/-- A default analysis record used only to extract concrete results. -/
def emptyAnalysis : CommitAnalysis :=
  { totalCommits := 0, authors := [], authorCount := 0, peakHour := 0,
    avgMsgLen := 0, fixRatio := 0, featRatio := 0, refactorRatio := 0,
    commitsPerDay := 0, daySpan := 0, hashSeed := 0,
    music := { bpm := 0, voices := 0, mode := "", complexity := 0, energy := 0 } }

/-- The concrete analysis of the single-commit fixture above. -/
def wAnalysisC9 : CommitAnalysis := (analyzeCommits [wCommitC9]).getD emptyAnalysis

/-- Witness for the amended C9 at a concrete commit list with hashSeed 1. -/
theorem musicRoot_valid_witness :
    (analyzeCommits [wCommitC9] = some wAnalysisC9 ∧ 0 ≤ wAnalysisC9.hashSeed) ∧
    ((-2147483648 ≤ wAnalysisC9.hashSeed ∧ wAnalysisC9.hashSeed < 2147483648) ∧
      0 ≤ musicRootIdx wAnalysisC9 ∧ musicRootIdx wAnalysisC9 < 12 ∧
      (musicRoot wAnalysisC9).isSome = true) :=
  ⟨⟨rfl, by decide⟩, musicRoot_valid_of_nonneg [wCommitC9] wAnalysisC9 rfl (by decide)⟩

/-! ## Scenes and the deterministic fallback producer (ai-engine.js) -/

structure Choice where
  label : String
  text : String
deriving Repr, DecidableEq

/-- A scene: narrative plus choices.  `isEpilogue` is `none` when the JS
object has no such key (ordinary scenes) and `some b` when present. -/
structure Scene where
  narrative : String
  choices : List Choice
  isEpilogue : Option Bool
deriving Repr, DecidableEq

/-- ai-engine.js `pickClass`: keyword class of a commit subject. -/
def pickClass (commit : CommitRecord) : String :=
  let msg := commit.subject.toLower
  if containsStr msg "fix" || containsStr msg "bug" then "Paladin"
  else if containsStr msg "feat" || containsStr msg "add" then "Wizard"
  else if containsStr msg "refactor" then "Druid"
  else if containsStr msg "test" then "Ranger"
  else if containsStr msg "doc" then "Bard"
  else "Adventurer"

/-- The dnd narrative template pool of `generateFallbackScene`. -/
def dndTemplates (c : CommitRecord) (idx total : Nat) : List String :=
  ["The ancient chronicles speak of \"" ++ c.subject ++ "\". " ++ c.authorName ++
     " the " ++ pickClass c ++ " stands at a crossroads, their quest " ++
     toString (jsRound (((idx : ℚ) / (total : ℚ)) * 100)) ++
     "% complete. The realm holds its breath.",
   "A great deed was wrought this day: \"" ++ c.subject ++ "\". The wizard " ++
     c.authorName ++ " has altered the very fabric of the realm. Dark forces stir in response.",
   "The guild records note that " ++ c.authorName ++ " has completed \"" ++ c.subject ++
     "\". Heroes gather to decide the next course of action."]

/-- The scifi narrative template pool; `r` is the Math.random draw used by
the cosmetic system-integrity flourish of the second template. -/
def scifiTemplates (c : CommitRecord) (idx total : Nat) (r : ℚ) : List String :=
  ["MISSION LOG " ++ toString (idx + 1) ++ "/" ++ toString total ++ ": Crew member " ++
     c.authorName ++ " reports: \"" ++ c.subject ++ "\". Ship systems nominal. Awaiting orders.",
   "ALERT: " ++ c.authorName ++ " has executed protocol \"" ++ c.subject ++
     "\". System integrity at " ++ toString (jsRound (80 + r * 20)) ++
     "%. Multiple response vectors available.",
   "TRANSMISSION RECEIVED from " ++ c.authorName ++ ": \"" ++ c.subject ++
     "\". The crew awaits your command, Captain."]

/-- The horror narrative template pool. -/
def horrorTemplates (c : CommitRecord) : List String :=
  ["The log entry reads, in " ++ c.authorName ++ "\x27s trembling hand: \"" ++ c.subject ++
     "\". Something has changed. You can feel it in the walls.",
   c.authorName ++ " did something. The entry says \"" ++ c.subject ++
     "\". That was three days ago. No one has seen them since.",
   "You find a note: \"" ++ c.subject ++ "\" — signed by " ++ c.authorName ++
     ". The ink is still fresh. Or is that something else?"]

/-- The fixed dnd fallback choice set. -/
def dndChoices : List Choice :=
  [⟨"A", "Draw your sword and face what lies ahead"⟩,
   ⟨"B", "Consult the ancient scrolls for guidance"⟩,
   ⟨"C", "Seek allies before proceeding"⟩]

/-- The fixed scifi fallback choice set. -/
def scifiChoices : List Choice :=
  [⟨"A", "Execute primary mission objective"⟩,
   ⟨"B", "Run diagnostics and assess the situation"⟩,
   ⟨"C", "Contact command for further instructions"⟩]

/-- The fixed horror fallback choice set. -/
def horrorChoices : List Choice :=
  [⟨"A", "Go deeper. You need to know the truth."⟩,
   ⟨"B", "Stay where you are. Moving feels wrong."⟩,
   ⟨"C", "Try to leave. While you still can."⟩]

/-- ai-engine.js `generateFallbackScene`: deterministic scene from a commit;
`templates[style] || templates.dnd`, narrative `pool[idx % pool.length]`,
fixed 3-choice set `choiceSets[style] || choiceSets.dnd`. -/
def generateFallbackScene (c : CommitRecord) (style : String) (idx total : Nat) (r : ℚ) : Scene :=
  let pool :=
    if style == "dnd" then dndTemplates c idx total
    else if style == "scifi" then scifiTemplates c idx total r
    else if style == "horror" then horrorTemplates c
    else dndTemplates c idx total
  let narrative := pool.getD (idx % pool.length) ""
  let choices :=
    if style == "dnd" then dndChoices
    else if style == "scifi" then scifiChoices
    else if style == "horror" then horrorChoices
    else dndChoices
  { narrative := narrative, choices := choices, isEpilogue := none }

/-- story-engine.js `generateNextScene` narrative production: the AI result
when it succeeds, otherwise the deterministic fallback on the current commit.
`none` models the (unreachable for a valid index) exception that accessing a
field of an `undefined` commit would raise. -/
def nextSceneOf (ai : Except String Scene) (commits : List CommitRecord)
    (idx : Nat) (style : String) (r : ℚ) : Option Scene :=
  match ai with
  | .ok s => some s
  | .error _ => (commits.get? idx).map (fun c => generateFallbackScene c style idx commits.length r)

lemma str_append_ne_left (a b : String) (h : 0 < a.length) : a ++ b ≠ "" := by
  intro hab
  have h2 : (a ++ b).length = 0 := by rw [hab]; rfl
  rw [String.length_append] at h2
  omega

lemma str_append_ne_right (a b : String) (h : 0 < b.length) : a ++ b ≠ "" := by
  intro hab
  have h2 : (a ++ b).length = 0 := by rw [hab]; rfl
  rw [String.length_append] at h2
  omega

/-- The narrative drawn from the dnd pool is a non-empty string. -/
lemma dndTemplates_getD_ne (c : CommitRecord) (idx total n : Nat) :
    (dndTemplates c idx total).getD (n % 3) "" ≠ "" := by
  have h3 : n % 3 = 0 ∨ n % 3 = 1 ∨ n % 3 = 2 := by omega
  rcases h3 with h | h | h <;> rw [h] <;>
    exact str_append_ne_right _ _ (by decide)

/-- The narrative drawn from the scifi pool is a non-empty string. -/
lemma scifiTemplates_getD_ne (c : CommitRecord) (idx total n : Nat) (r : ℚ) :
    (scifiTemplates c idx total r).getD (n % 3) "" ≠ "" := by
  have h3 : n % 3 = 0 ∨ n % 3 = 1 ∨ n % 3 = 2 := by omega
  rcases h3 with h | h | h <;> rw [h] <;>
    exact str_append_ne_right _ _ (by decide)

/-- The narrative drawn from the horror pool is a non-empty string. -/
lemma horrorTemplates_getD_ne (c : CommitRecord) (n : Nat) :
    (horrorTemplates c).getD (n % 3) "" ≠ "" := by
  have h3 : n % 3 = 0 ∨ n % 3 = 1 ∨ n % 3 = 2 := by omega
  rcases h3 with h | h | h <;> rw [h] <;>
    exact str_append_ne_right _ _ (by decide)

/-- C3: when the AI producer throws (always yields an error), the scene
generation path still returns a well-formed `Scene` — the deterministic
fallback on the current commit — with a non-empty narrative and exactly 3
choices, for every style and every valid position in a non-empty commit
list; the deterministic fallback producer itself is a total function (it
never throws). -/
theorem fallback_scene_wellformed (style : String) (commits : List CommitRecord)
    (idx : Nat) (r : ℚ) (err : String) (c : CommitRecord) (s : Scene)
    (hne : commits ≠ []) (hc : commits.get? idx = some c)
    (hs : nextSceneOf (.error err) commits idx style r = some s) :
    s = generateFallbackScene c style idx commits.length r ∧
    s.narrative ≠ "" ∧ s.choices.length = 3 := by
  have hnext : nextSceneOf (.error err) commits idx style r =
      (commits.get? idx).map
        (fun c => generateFallbackScene c style idx commits.length r) := rfl
  rw [hnext, hc, Option.map_some'] at hs
  have hsc : s = generateFallbackScene c style idx commits.length r := by
    injection hs.symm
  subst hsc
  refine ⟨rfl, ?_, ?_⟩
  · -- the narrative is a template drawn from a pool of three non-empty strings
    show (generateFallbackScene c style idx commits.length r).narrative ≠ ""
    simp only [generateFallbackScene]
    split
    · exact dndTemplates_getD_ne c idx commits.length idx
    · split
      · exact scifiTemplates_getD_ne c idx commits.length idx r
      · split
        · exact horrorTemplates_getD_ne c idx
        · exact dndTemplates_getD_ne c idx commits.length idx
  · show (generateFallbackScene c style idx commits.length r).choices.length = 3
    simp only [generateFallbackScene]
    split <;> try rfl
    split <;> try rfl
    split <;> rfl

/-- The default empty scene, used only to extract concrete results. -/
def emptyScene : Scene := ⟨"", [], none⟩

/-- The concrete scene the fallback path produces for the fixture commit in
horror style when the AI always throws. -/
def wFallbackScene : Scene :=
  (nextSceneOf (.error "boom") [wCommitA] 0 "horror" (1/2)).getD emptyScene

/-- Witness for C3 at a concrete one-commit game in horror style. -/
theorem fallback_scene_wellformed_witness :
    ([wCommitA] ≠ ([] : List CommitRecord) ∧
     [wCommitA].get? 0 = some wCommitA ∧
     nextSceneOf (.error "boom") [wCommitA] 0 "horror" (1/2) = some wFallbackScene) ∧
    (wFallbackScene = generateFallbackScene wCommitA "horror" 0 [wCommitA].length (1/2) ∧
     wFallbackScene.narrative ≠ "" ∧ wFallbackScene.choices.length = 3) :=
  ⟨⟨by simp, rfl, rfl⟩,
    fallback_scene_wellformed "horror" [wCommitA] 0 (1/2) "boom" wCommitA wFallbackScene
      (by simp) rfl rfl⟩

/-! ## Story state machine (story-engine.js) -/

structure RepoRef where
  owner : String
  repo : String
deriving Repr, DecidableEq

structure QuestEntry where
  text : String
  chapter : Nat
deriving Repr, DecidableEq

/-- One resolved turn as recorded in `history` (the JS object keys are
`narrative`, `choice`, `commitSha`; `commitSha` is `undefined` — `none` —
when the current commit is out of range). -/
structure HistoryEntry where
  narrative : String
  choice : String
  commitSha : Option String
deriving Repr, DecidableEq

structure GameState where
  repo : RepoRef
  style : String
  commits : List CommitRecord
  analysis : CommitAnalysis
  commitIndex : Nat
  chapter : Nat
  hp : Int
  maxHp : Int
  xp : Int
  level : Nat
  inventory : List String
  questLog : List QuestEntry
  history : List HistoryEntry
  currentScene : Option Scene
  startedAt : Int
  savedAt : Option Int
deriving Repr, DecidableEq

/-- story-engine.js `createInitialState`; `now` is the `Date.now()` result. -/
def createInitialState (repo : RepoRef) (style : String) (commits : List CommitRecord)
    (analysis : CommitAnalysis) (now : Int) : GameState :=
  { repo := repo, style := style, commits := commits, analysis := analysis,
    commitIndex := 0, chapter := 1,
    hp := 100, maxHp := 100, xp := 0, level := 1, inventory := [], questLog := [],
    history := [], currentScene := none, startedAt := now, savedAt := none }

/-- story-engine.js `XP_PER_LEVEL`. -/
def XP_PER_LEVEL : List Int := [0, 100, 250, 450, 700, 1000, 1400, 1900, 2500, 3200]

/-- The `Math.random()` draws one `applyChoiceConsequences` call can consume
(`xp` for the XP gain, `inv` for the >0.6 item-drop gate, `item` for the item
pick) plus the draw a fallback scene's cosmetic flourish can consume. -/
structure Rand where
  xp : ℚ
  inv : ℚ
  item : ℚ
  flourish : ℚ
deriving Repr, DecidableEq

/-- The `StoryEngine` object: its game state (possibly `null`) and the
single in-flight generation guard. -/
structure Engine where
  state : Option GameState
  generating : Bool
deriving Repr, DecidableEq

/-- story-engine.js `addQuestEntry`: unshift, then pop when over 10. -/
def addQuestEntry (st : GameState) (text : String) : GameState :=
  let ql := ⟨text, st.chapter⟩ :: st.questLog
  { st with questLog := if 10 < ql.length then ql.dropLast else ql }

/-- `this.state.commits[this.state.commitIndex]?.subject?.toLowerCase() || ''`. -/
def commitMsg (st : GameState) : String :=
  match st.commits.get? st.commitIndex with
  | some c => c.subject.toLower
  | none => ""

/-- Regex `/fix|bug|patch/` applied to the lowercased subject. -/
def fixConseqTest (t : String) : Bool :=
  containsStr t "fix" || containsStr t "bug" || containsStr t "patch"

/-- Regex `/feat|add|new/` applied to the lowercased subject. -/
def featConseqTest (t : String) : Bool :=
  containsStr t "feat" || containsStr t "add" || containsStr t "new"

/-- Regex `/refactor|clean/` applied to the lowercased subject. -/
def refactorConseqTest (t : String) : Bool :=
  containsStr t "refactor" || containsStr t "clean"

/-- Regex `/release|version|v\d/` applied to the lowercased subject. -/
def releaseConseqTest (t : String) : Bool :=
  containsStr t "release" || containsStr t "version" || hasVDigit t

/-- Regex `/merge/` applied to the lowercased subject. -/
def mergeConseqTest (t : String) : Bool := containsStr t "merge"

/-- `XP_PER_LEVEL[this.state.level] || 9999` (the `||` also maps 0 to 9999). -/
def nextThreshold (level : Nat) : Int :=
  match XP_PER_LEVEL.get? level with
  | some v => if v == 0 then 9999 else v
  | none => 9999

/-- The style-specific inventory item pools (`items[style] || items.dnd`). -/
def itemsFor (style : String) : List String :=
  if style == "dnd" then
    ["Magic Scroll", "Enchanted Sword", "Ancient Tome", "Healing Potion", "Dragon Scale"]
  else if style == "scifi" then
    ["Energy Cell", "Neural Chip", "Plasma Rifle", "Nano-med Kit", "Quantum Drive"]
  else if style == "horror" then
    ["Torn Page", "Rusty Key", "Strange Amulet", "Faded Photo", "Cracked Mirror"]
  else
    ["Magic Scroll", "Enchanted Sword", "Ancient Tome", "Healing Potion", "Dragon Scale"]

/-- The XP-gain and level-up block of `applyChoiceConsequences`. -/
def applyXpAndLevel (st : GameState) (r : Rand) : GameState :=
  let xpGain : Int := 20 + ⌊r.xp * 30⌋
  let xp2 := st.xp + xpGain
  if nextThreshold st.level ≤ xp2 ∧ st.level < 10 then
    let level2 := st.level + 1
    let maxHp2 := st.maxHp + 10
    let hp2 := min (st.hp + 20) maxHp2
    addQuestEntry
      { st with xp := xp2, level := level2, maxHp := maxHp2, hp := hp2 }
      ("Level " ++ toString level2 ++ " reached!")
  else { st with xp := xp2 }

/-- The HP-delta block of `applyChoiceConsequences`: only on a fix-like
commit; option 0 costs 10 HP, option 2 heals 5 HP, anything else is neutral;
the result is clamped to [1, maxHp]. -/
def applyHpDelta (st : GameState) (index : Nat) : GameState :=
  if fixConseqTest (commitMsg st) then
    let hpDelta : Int := if index == 0 then -10 else if index == 2 then 5 else 0
    { st with hp := max 1 (min st.maxHp (st.hp + hpDelta)) }
  else st

/-- The inventory block of `applyChoiceConsequences`: on a feat-like commit,
when the >0.6 draw succeeds, pick a random style item and push it unless it
is already held or the inventory is full.  (For `r.item` outside [0,1) the
pick would be `undefined`; that branch is modelled as a skip — `Math.random()`
never produces it.) -/
def applyInventory (st : GameState) (r : Rand) : GameState :=
  if featConseqTest (commitMsg st) ∧ 3/5 < r.inv then
    let pool := itemsFor st.style
    match jsArrayGet pool ⌊r.item * (pool.length : ℚ)⌋ with
    | some item =>
      if item ∉ st.inventory ∧ st.inventory.length < 8 then
        { st with inventory := st.inventory ++ [item] }
      else st
    | none => st
  else st

/-- The quest-log block of `applyChoiceConsequences`. -/
def applyQuestFlags (st : GameState) : GameState :=
  let msg := commitMsg st
  let st1 := if refactorConseqTest msg then addQuestEntry st "The Great Restructuring begins..." else st
  let st2 := if releaseConseqTest msg then addQuestEntry st1 "A new era dawns!" else st1
  if mergeConseqTest msg then addQuestEntry st2 "Factions united (or divided)" else st2

/-- story-engine.js `applyChoiceConsequences`, in source order: XP/level-up,
HP delta, inventory, quest-log flags. -/
def applyChoiceConsequences (st : GameState) (index : Nat) (r : Rand) : GameState :=
  applyQuestFlags (applyInventory (applyHpDelta (applyXpAndLevel st r) index) r)

/-- story-engine.js `generateEpilogue`'s scene: style narrative summarizing
totals and final stats, three fixed meta-choices, `isEpilogue: true`. -/
def epilogueScene (st : GameState) : Scene :=
  let n := st.commits.length
  let narrative :=
    if st.style == "dnd" then
      "The chronicles are complete. " ++ toString n ++
      " quests have been recorded in the great tome. The realm stands transformed by your choices. Your legend will be sung for ages to come. HP: " ++
      toString st.hp ++ "/" ++ toString st.maxHp ++ " | Level: " ++ toString st.level ++
      " | XP: " ++ toString st.xp
    else if st.style == "scifi" then
      "MISSION COMPLETE. All " ++ toString n ++
      " mission logs have been processed. The ship\x27s journey is recorded in the annals of the fleet. Your decisions have shaped the future of the crew. Final Status: HP " ++
      toString st.hp ++ "/" ++ toString st.maxHp ++ " | Rank: " ++ toString st.level ++
      " | Merit: " ++ toString st.xp
    else if st.style == "horror" then
      "It\x27s over. Or is it? You\x27ve witnessed all " ++ toString n ++
      " events in this cursed repository. You survived. Most don\x27t. The code remains. It always remains. HP: " ++
      toString st.hp ++ "/" ++ toString st.maxHp ++ " | Sanity: " ++ toString (st.level * 10) ++ "%"
    else
      "The chronicles are complete. " ++ toString n ++
      " quests have been recorded in the great tome. The realm stands transformed by your choices. Your legend will be sung for ages to come. HP: " ++
      toString st.hp ++ "/" ++ toString st.maxHp ++ " | Level: " ++ toString st.level ++
      " | XP: " ++ toString st.xp
  { narrative := narrative,
    choices := [⟨"A", "Begin a new quest with another repository"⟩,
                ⟨"B", "Replay this adventure with a different style"⟩,
                ⟨"C", "Return to the beginning"⟩],
    isEpilogue := some true }

/-- The turn body of `makeChoice` after validation: record history, apply
consequences, advance the commit cursor (clamped to the last index — note
the JS `commits.length - 1` can only be reached from states with commits,
so `Nat` truncation at 0 is never exercised), recompute the chapter. -/
def resolveTurn (st : GameState) (scene : Scene) (choice : Choice) (index : Nat) (r : Rand) : GameState :=
  let st1 := { st with history := st.history ++
    [⟨scene.narrative, choice.text, (st.commits.get? st.commitIndex).map (·.sha)⟩] }
  let st2 := applyChoiceConsequences st1 index r
  let st3 := { st2 with commitIndex := min (st2.commitIndex + 1) (st2.commits.length - 1) }
  { st3 with chapter := st3.commitIndex / 10 + 1 }

/-- The observable result of one `makeChoice` call: the engine afterwards and
whether a scene request was issued to the narrative facade. -/
structure MCResult where
  engine : Engine
  requested : Bool
deriving Repr, DecidableEq

/-- The post-validation body of `makeChoice`: one resolved turn; the
epilogue branch sets the epilogue scene and stops (no auto-save, no scene
request), otherwise the next scene is requested (AI result `ai`, fallback on
error) and an auto-save stamps `savedAt` (`none` from `nextSceneOf` models
the out-of-range throw: the state keeps the previous scene and the save is
not reached). -/
def turnOutcome (st : GameState) (scene : Scene) (choice : Choice) (index : Nat)
    (r : Rand) (ai : Except String Scene) (now : Int) : MCResult :=
  let st3 := resolveTurn st scene choice index r
  if st3.commits.length - 1 ≤ st3.commitIndex ∧ 1 < st3.history.length then
    ⟨⟨some { st3 with currentScene := some (epilogueScene st3) }, false⟩, false⟩
  else
    match nextSceneOf ai st3.commits st3.commitIndex st3.style r.flourish with
    | some sc => ⟨⟨some { st3 with currentScene := some sc, savedAt := some now }, false⟩, true⟩
    | none => ⟨⟨some st3, false⟩, true⟩

/-- story-engine.js `makeChoice`: guards (no state / generation in flight /
no current scene / no such choice) make the call a no-op, otherwise the turn
is resolved by `turnOutcome`. -/
def makeChoice (e : Engine) (index : Nat) (r : Rand) (ai : Except String Scene) (now : Int) : MCResult :=
  match e.state with
  | none => ⟨e, false⟩
  | some st =>
    if e.generating then ⟨e, false⟩
    else
      match st.currentScene with
      | none => ⟨e, false⟩
      | some scene =>
        match scene.choices.get? index with
        | none => ⟨e, false⟩
        | some choice => turnOutcome st scene choice index r ai now

/-- story-engine.js `startGame`: initial state, then the first scene. -/
def startGame (repo : RepoRef) (style : String) (commits : List CommitRecord)
    (analysis : CommitAnalysis) (now : Int) (ai : Except String Scene) (r : ℚ) : Engine :=
  let st := createInitialState repo style commits analysis now
  match nextSceneOf ai st.commits st.commitIndex st.style r with
  | some sc => ⟨some { st with currentScene := some sc }, false⟩
  | none => ⟨some st, false⟩

/-- The per-turn inputs of one `makeChoice` call. -/
structure Step where
  index : Nat
  r : Rand
  ai : Except String Scene
  now : Int

/-- A sequence of `makeChoice` calls. -/
def runSteps (e : Engine) (steps : List Step) : Engine :=
  steps.foldl (fun e s => (makeChoice e s.index s.r s.ai s.now).engine) e

/-! ### Field-preservation lemmas for the consequence blocks -/

@[simp] lemma addQuestEntry_repo (st : GameState) (t : String) : (addQuestEntry st t).repo = st.repo := rfl
@[simp] lemma addQuestEntry_style (st : GameState) (t : String) : (addQuestEntry st t).style = st.style := rfl
@[simp] lemma addQuestEntry_commits (st : GameState) (t : String) : (addQuestEntry st t).commits = st.commits := rfl
@[simp] lemma addQuestEntry_commitIndex (st : GameState) (t : String) : (addQuestEntry st t).commitIndex = st.commitIndex := rfl
@[simp] lemma addQuestEntry_chapter (st : GameState) (t : String) : (addQuestEntry st t).chapter = st.chapter := rfl
@[simp] lemma addQuestEntry_hp (st : GameState) (t : String) : (addQuestEntry st t).hp = st.hp := rfl
@[simp] lemma addQuestEntry_maxHp (st : GameState) (t : String) : (addQuestEntry st t).maxHp = st.maxHp := rfl
@[simp] lemma addQuestEntry_xp (st : GameState) (t : String) : (addQuestEntry st t).xp = st.xp := rfl
@[simp] lemma addQuestEntry_level (st : GameState) (t : String) : (addQuestEntry st t).level = st.level := rfl
@[simp] lemma addQuestEntry_inventory (st : GameState) (t : String) : (addQuestEntry st t).inventory = st.inventory := rfl
@[simp] lemma addQuestEntry_history (st : GameState) (t : String) : (addQuestEntry st t).history = st.history := rfl
@[simp] lemma addQuestEntry_currentScene (st : GameState) (t : String) : (addQuestEntry st t).currentScene = st.currentScene := rfl
@[simp] lemma addQuestEntry_savedAt (st : GameState) (t : String) : (addQuestEntry st t).savedAt = st.savedAt := rfl

@[simp] lemma applyXpAndLevel_repo (st : GameState) (r : Rand) : (applyXpAndLevel st r).repo = st.repo := by
  unfold applyXpAndLevel; dsimp only; split <;> rfl
@[simp] lemma applyXpAndLevel_style (st : GameState) (r : Rand) : (applyXpAndLevel st r).style = st.style := by
  unfold applyXpAndLevel; dsimp only; split <;> rfl
@[simp] lemma applyXpAndLevel_commits (st : GameState) (r : Rand) : (applyXpAndLevel st r).commits = st.commits := by
  unfold applyXpAndLevel; dsimp only; split <;> rfl
@[simp] lemma applyXpAndLevel_commitIndex (st : GameState) (r : Rand) : (applyXpAndLevel st r).commitIndex = st.commitIndex := by
  unfold applyXpAndLevel; dsimp only; split <;> rfl
@[simp] lemma applyXpAndLevel_chapter (st : GameState) (r : Rand) : (applyXpAndLevel st r).chapter = st.chapter := by
  unfold applyXpAndLevel; dsimp only; split <;> rfl
@[simp] lemma applyXpAndLevel_inventory (st : GameState) (r : Rand) : (applyXpAndLevel st r).inventory = st.inventory := by
  unfold applyXpAndLevel; dsimp only; split <;> rfl
@[simp] lemma applyXpAndLevel_history (st : GameState) (r : Rand) : (applyXpAndLevel st r).history = st.history := by
  unfold applyXpAndLevel; dsimp only; split <;> rfl
@[simp] lemma applyXpAndLevel_currentScene (st : GameState) (r : Rand) : (applyXpAndLevel st r).currentScene = st.currentScene := by
  unfold applyXpAndLevel; dsimp only; split <;> rfl
@[simp] lemma applyXpAndLevel_savedAt (st : GameState) (r : Rand) : (applyXpAndLevel st r).savedAt = st.savedAt := by
  unfold applyXpAndLevel; dsimp only; split <;> rfl

@[simp] lemma applyXpAndLevel_xp (st : GameState) (r : Rand) :
    (applyXpAndLevel st r).xp = st.xp + (20 + ⌊r.xp * 30⌋) := by
  unfold applyXpAndLevel; dsimp only; split <;> rfl

/-- Level-up branch characterization. -/
lemma applyXpAndLevel_up (st : GameState) (r : Rand)
    (h : nextThreshold st.level ≤ st.xp + (20 + ⌊r.xp * 30⌋) ∧ st.level < 10) :
    (applyXpAndLevel st r).level = st.level + 1 ∧
    (applyXpAndLevel st r).maxHp = st.maxHp + 10 ∧
    (applyXpAndLevel st r).hp = min (st.hp + 20) (st.maxHp + 10) := by
  unfold applyXpAndLevel
  dsimp only
  split
  · exact ⟨rfl, rfl, rfl⟩
  · omega

/-- No-level-up branch characterization. -/
lemma applyXpAndLevel_no_up (st : GameState) (r : Rand)
    (h : ¬ (nextThreshold st.level ≤ st.xp + (20 + ⌊r.xp * 30⌋) ∧ st.level < 10)) :
    (applyXpAndLevel st r).level = st.level ∧
    (applyXpAndLevel st r).maxHp = st.maxHp ∧
    (applyXpAndLevel st r).hp = st.hp := by
  unfold applyXpAndLevel
  dsimp only
  split
  · omega
  · exact ⟨rfl, rfl, rfl⟩

@[simp] lemma applyHpDelta_repo (st : GameState) (i : Nat) : (applyHpDelta st i).repo = st.repo := by
  unfold applyHpDelta; dsimp only; split <;> rfl
@[simp] lemma applyHpDelta_style (st : GameState) (i : Nat) : (applyHpDelta st i).style = st.style := by
  unfold applyHpDelta; dsimp only; split <;> rfl
@[simp] lemma applyHpDelta_commits (st : GameState) (i : Nat) : (applyHpDelta st i).commits = st.commits := by
  unfold applyHpDelta; dsimp only; split <;> rfl
@[simp] lemma applyHpDelta_commitIndex (st : GameState) (i : Nat) : (applyHpDelta st i).commitIndex = st.commitIndex := by
  unfold applyHpDelta; dsimp only; split <;> rfl
@[simp] lemma applyHpDelta_chapter (st : GameState) (i : Nat) : (applyHpDelta st i).chapter = st.chapter := by
  unfold applyHpDelta; dsimp only; split <;> rfl
@[simp] lemma applyHpDelta_maxHp (st : GameState) (i : Nat) : (applyHpDelta st i).maxHp = st.maxHp := by
  unfold applyHpDelta; dsimp only; split <;> rfl
@[simp] lemma applyHpDelta_xp (st : GameState) (i : Nat) : (applyHpDelta st i).xp = st.xp := by
  unfold applyHpDelta; dsimp only; split <;> rfl
@[simp] lemma applyHpDelta_level (st : GameState) (i : Nat) : (applyHpDelta st i).level = st.level := by
  unfold applyHpDelta; dsimp only; split <;> rfl
@[simp] lemma applyHpDelta_inventory (st : GameState) (i : Nat) : (applyHpDelta st i).inventory = st.inventory := by
  unfold applyHpDelta; dsimp only; split <;> rfl
@[simp] lemma applyHpDelta_history (st : GameState) (i : Nat) : (applyHpDelta st i).history = st.history := by
  unfold applyHpDelta; dsimp only; split <;> rfl
@[simp] lemma applyHpDelta_questLog (st : GameState) (i : Nat) : (applyHpDelta st i).questLog = st.questLog := by
  unfold applyHpDelta; dsimp only; split <;> rfl
@[simp] lemma applyHpDelta_currentScene (st : GameState) (i : Nat) : (applyHpDelta st i).currentScene = st.currentScene := by
  unfold applyHpDelta; dsimp only; split <;> rfl
@[simp] lemma applyHpDelta_savedAt (st : GameState) (i : Nat) : (applyHpDelta st i).savedAt = st.savedAt := by
  unfold applyHpDelta; dsimp only; split <;> rfl

@[simp] lemma applyInventory_repo (st : GameState) (r : Rand) : (applyInventory st r).repo = st.repo := by
  unfold applyInventory; dsimp only; split
  · split
    · split <;> rfl
    · rfl
  · rfl
@[simp] lemma applyInventory_style (st : GameState) (r : Rand) : (applyInventory st r).style = st.style := by
  unfold applyInventory; dsimp only; split
  · split
    · split <;> rfl
    · rfl
  · rfl
@[simp] lemma applyInventory_commits (st : GameState) (r : Rand) : (applyInventory st r).commits = st.commits := by
  unfold applyInventory; dsimp only; split
  · split
    · split <;> rfl
    · rfl
  · rfl
@[simp] lemma applyInventory_commitIndex (st : GameState) (r : Rand) : (applyInventory st r).commitIndex = st.commitIndex := by
  unfold applyInventory; dsimp only; split
  · split
    · split <;> rfl
    · rfl
  · rfl
@[simp] lemma applyInventory_chapter (st : GameState) (r : Rand) : (applyInventory st r).chapter = st.chapter := by
  unfold applyInventory; dsimp only; split
  · split
    · split <;> rfl
    · rfl
  · rfl
@[simp] lemma applyInventory_hp (st : GameState) (r : Rand) : (applyInventory st r).hp = st.hp := by
  unfold applyInventory; dsimp only; split
  · split
    · split <;> rfl
    · rfl
  · rfl
@[simp] lemma applyInventory_maxHp (st : GameState) (r : Rand) : (applyInventory st r).maxHp = st.maxHp := by
  unfold applyInventory; dsimp only; split
  · split
    · split <;> rfl
    · rfl
  · rfl
@[simp] lemma applyInventory_xp (st : GameState) (r : Rand) : (applyInventory st r).xp = st.xp := by
  unfold applyInventory; dsimp only; split
  · split
    · split <;> rfl
    · rfl
  · rfl
@[simp] lemma applyInventory_level (st : GameState) (r : Rand) : (applyInventory st r).level = st.level := by
  unfold applyInventory; dsimp only; split
  · split
    · split <;> rfl
    · rfl
  · rfl
@[simp] lemma applyInventory_history (st : GameState) (r : Rand) : (applyInventory st r).history = st.history := by
  unfold applyInventory; dsimp only; split
  · split
    · split <;> rfl
    · rfl
  · rfl
@[simp] lemma applyInventory_questLog (st : GameState) (r : Rand) : (applyInventory st r).questLog = st.questLog := by
  unfold applyInventory; dsimp only; split
  · split
    · split <;> rfl
    · rfl
  · rfl
@[simp] lemma applyInventory_currentScene (st : GameState) (r : Rand) : (applyInventory st r).currentScene = st.currentScene := by
  unfold applyInventory; dsimp only; split
  · split
    · split <;> rfl
    · rfl
  · rfl
@[simp] lemma applyInventory_savedAt (st : GameState) (r : Rand) : (applyInventory st r).savedAt = st.savedAt := by
  unfold applyInventory; dsimp only; split
  · split
    · split <;> rfl
    · rfl
  · rfl

@[simp] lemma applyQuestFlags_repo (st : GameState) : (applyQuestFlags st).repo = st.repo := by
  unfold applyQuestFlags; dsimp only; split <;> split <;> split <;> simp
@[simp] lemma applyQuestFlags_style (st : GameState) : (applyQuestFlags st).style = st.style := by
  unfold applyQuestFlags; dsimp only; split <;> split <;> split <;> simp
@[simp] lemma applyQuestFlags_commits (st : GameState) : (applyQuestFlags st).commits = st.commits := by
  unfold applyQuestFlags; dsimp only; split <;> split <;> split <;> simp
@[simp] lemma applyQuestFlags_commitIndex (st : GameState) : (applyQuestFlags st).commitIndex = st.commitIndex := by
  unfold applyQuestFlags; dsimp only; split <;> split <;> split <;> simp
@[simp] lemma applyQuestFlags_chapter (st : GameState) : (applyQuestFlags st).chapter = st.chapter := by
  unfold applyQuestFlags; dsimp only; split <;> split <;> split <;> simp
@[simp] lemma applyQuestFlags_hp (st : GameState) : (applyQuestFlags st).hp = st.hp := by
  unfold applyQuestFlags; dsimp only; split <;> split <;> split <;> simp
@[simp] lemma applyQuestFlags_maxHp (st : GameState) : (applyQuestFlags st).maxHp = st.maxHp := by
  unfold applyQuestFlags; dsimp only; split <;> split <;> split <;> simp
@[simp] lemma applyQuestFlags_xp (st : GameState) : (applyQuestFlags st).xp = st.xp := by
  unfold applyQuestFlags; dsimp only; split <;> split <;> split <;> simp
@[simp] lemma applyQuestFlags_level (st : GameState) : (applyQuestFlags st).level = st.level := by
  unfold applyQuestFlags; dsimp only; split <;> split <;> split <;> simp
@[simp] lemma applyQuestFlags_inventory (st : GameState) : (applyQuestFlags st).inventory = st.inventory := by
  unfold applyQuestFlags; dsimp only; split <;> split <;> split <;> simp
@[simp] lemma applyQuestFlags_history (st : GameState) : (applyQuestFlags st).history = st.history := by
  unfold applyQuestFlags; dsimp only; split <;> split <;> split <;> simp
@[simp] lemma applyQuestFlags_currentScene (st : GameState) : (applyQuestFlags st).currentScene = st.currentScene := by
  unfold applyQuestFlags; dsimp only; split <;> split <;> split <;> simp
@[simp] lemma applyQuestFlags_savedAt (st : GameState) : (applyQuestFlags st).savedAt = st.savedAt := by
  unfold applyQuestFlags; dsimp only; split <;> split <;> split <;> simp

@[simp] lemma applyChoiceConsequences_commits (st : GameState) (i : Nat) (r : Rand) :
    (applyChoiceConsequences st i r).commits = st.commits := by
  simp [applyChoiceConsequences]
@[simp] lemma applyChoiceConsequences_commitIndex (st : GameState) (i : Nat) (r : Rand) :
    (applyChoiceConsequences st i r).commitIndex = st.commitIndex := by
  simp [applyChoiceConsequences]
@[simp] lemma applyChoiceConsequences_style (st : GameState) (i : Nat) (r : Rand) :
    (applyChoiceConsequences st i r).style = st.style := by
  simp [applyChoiceConsequences]
@[simp] lemma applyChoiceConsequences_history (st : GameState) (i : Nat) (r : Rand) :
    (applyChoiceConsequences st i r).history = st.history := by
  simp [applyChoiceConsequences]
@[simp] lemma applyChoiceConsequences_currentScene (st : GameState) (i : Nat) (r : Rand) :
    (applyChoiceConsequences st i r).currentScene = st.currentScene := by
  simp [applyChoiceConsequences]
@[simp] lemma applyChoiceConsequences_savedAt (st : GameState) (i : Nat) (r : Rand) :
    (applyChoiceConsequences st i r).savedAt = st.savedAt := by
  simp [applyChoiceConsequences]
@[simp] lemma applyChoiceConsequences_xp (st : GameState) (i : Nat) (r : Rand) :
    (applyChoiceConsequences st i r).xp = st.xp + (20 + ⌊r.xp * 30⌋) := by
  simp [applyChoiceConsequences]
@[simp] lemma applyChoiceConsequences_level (st : GameState) (i : Nat) (r : Rand) :
    (applyChoiceConsequences st i r).level = (applyXpAndLevel st r).level := by
  simp [applyChoiceConsequences]
@[simp] lemma applyChoiceConsequences_maxHp (st : GameState) (i : Nat) (r : Rand) :
    (applyChoiceConsequences st i r).maxHp = (applyXpAndLevel st r).maxHp := by
  simp [applyChoiceConsequences]

@[simp] lemma resolveTurn_commits (st : GameState) (sc : Scene) (ch : Choice) (i : Nat) (r : Rand) :
    (resolveTurn st sc ch i r).commits = st.commits := by
  simp [resolveTurn]
@[simp] lemma resolveTurn_commitIndex (st : GameState) (sc : Scene) (ch : Choice) (i : Nat) (r : Rand) :
    (resolveTurn st sc ch i r).commitIndex = min (st.commitIndex + 1) (st.commits.length - 1) := by
  simp [resolveTurn]
@[simp] lemma resolveTurn_style (st : GameState) (sc : Scene) (ch : Choice) (i : Nat) (r : Rand) :
    (resolveTurn st sc ch i r).style = st.style := by
  simp [resolveTurn]
@[simp] lemma resolveTurn_history (st : GameState) (sc : Scene) (ch : Choice) (i : Nat) (r : Rand) :
    (resolveTurn st sc ch i r).history = st.history ++
      [⟨sc.narrative, ch.text, (st.commits.get? st.commitIndex).map (·.sha)⟩] := by
  simp [resolveTurn]

/-! ### The state invariant and its preservation -/

/-- The stats invariant of a live game state: HP in [1, maxHp], level in
[1, 10], inventory duplicate-free with at most 8 entries. -/
def StateInv (st : GameState) : Prop :=
  1 ≤ st.hp ∧ st.hp ≤ st.maxHp ∧ 1 ≤ st.level ∧ st.level ≤ 10 ∧
  st.inventory.Nodup ∧ st.inventory.length ≤ 8

lemma stateInv_applyXpAndLevel (st : GameState) (r : Rand) (h : StateInv st) :
    StateInv (applyXpAndLevel st r) := by
  obtain ⟨h1, h2, h3, h4, h5, h6⟩ := h
  have hinv := applyXpAndLevel_inventory st r
  by_cases hc : nextThreshold st.level ≤ st.xp + (20 + ⌊r.xp * 30⌋) ∧ st.level < 10
  · obtain ⟨hc1, hc2⟩ := hc
    obtain ⟨hl, hm, hh⟩ := applyXpAndLevel_up st r ⟨hc1, hc2⟩
    refine ⟨?_, ?_, ?_, ?_, ?_, ?_⟩
    · rw [hh]; omega
    · rw [hh, hm]; omega
    · rw [hl]; omega
    · rw [hl]; omega
    · rw [hinv]; exact h5
    · rw [hinv]; exact h6
  · obtain ⟨hl, hm, hh⟩ := applyXpAndLevel_no_up st r hc
    refine ⟨?_, ?_, ?_, ?_, ?_, ?_⟩
    · rw [hh]; omega
    · rw [hh, hm]; omega
    · rw [hl]; omega
    · rw [hl]; omega
    · rw [hinv]; exact h5
    · rw [hinv]; exact h6

lemma stateInv_applyHpDelta (st : GameState) (i : Nat) (h : StateInv st) :
    StateInv (applyHpDelta st i) := by
  obtain ⟨h1, h2, h3, h4, h5, h6⟩ := h
  unfold applyHpDelta
  dsimp only
  split
  · refine ⟨?_, ?_, h3, h4, h5, h6⟩
    · exact le_max_left _ _
    · show max 1 (min st.maxHp _) ≤ st.maxHp
      omega
  · exact ⟨h1, h2, h3, h4, h5, h6⟩

lemma stateInv_applyInventory (st : GameState) (r : Rand) (h : StateInv st) :
    StateInv (applyInventory st r) := by
  obtain ⟨h1, h2, h3, h4, h5, h6⟩ := h
  unfold applyInventory
  dsimp only
  split
  · split
    · split
      · rename_i item heq hcond
        refine ⟨h1, h2, h3, h4, ?_, ?_⟩
        · show (st.inventory ++ [item]).Nodup
          rw [List.nodup_append]
          exact ⟨h5, List.nodup_singleton _, by
            rw [List.disjoint_singleton]; exact hcond.1⟩
        · show (st.inventory ++ [item]).length ≤ 8
          rw [List.length_append]
          simp only [List.length_singleton]
          omega
      · exact ⟨h1, h2, h3, h4, h5, h6⟩
    · exact ⟨h1, h2, h3, h4, h5, h6⟩
  · exact ⟨h1, h2, h3, h4, h5, h6⟩

lemma stateInv_applyQuestFlags (st : GameState) (h : StateInv st) :
    StateInv (applyQuestFlags st) := by
  obtain ⟨h1, h2, h3, h4, h5, h6⟩ := h
  exact ⟨by simpa using h1, by simpa using h2, by simpa using h3,
         by simpa using h4, by simpa using h5, by simpa using h6⟩

lemma stateInv_applyChoiceConsequences (st : GameState) (i : Nat) (r : Rand) (h : StateInv st) :
    StateInv (applyChoiceConsequences st i r) :=
  stateInv_applyQuestFlags _
    (stateInv_applyInventory _ _ (stateInv_applyHpDelta _ _ (stateInv_applyXpAndLevel _ _ h)))

lemma stateInv_resolveTurn (st : GameState) (sc : Scene) (ch : Choice) (i : Nat) (r : Rand)
    (h : StateInv st) : StateInv (resolveTurn st sc ch i r) := by
  have h1 : StateInv { st with history := st.history ++
      [⟨sc.narrative, ch.text, (st.commits.get? st.commitIndex).map (·.sha)⟩] } := h
  have h2 := stateInv_applyChoiceConsequences _ i r h1
  exact h2

/-- Engine-level invariant: whatever game state is live satisfies `StateInv`. -/
def EngineInv (e : Engine) : Prop := ∀ st, e.state = some st → StateInv st

lemma engineInv_makeChoice (e : Engine) (i : Nat) (r : Rand) (ai : Except String Scene)
    (now : Int) (h : EngineInv e) : EngineInv (makeChoice e i r ai now).engine := by
  unfold makeChoice
  obtain ⟨est, gen⟩ := e
  cases est with
  | none => exact h
  | some st =>
    have hst : StateInv st := h st rfl
    dsimp only
    by_cases hgen : gen
    · simp only [if_pos hgen]; exact h
    · simp only [if_neg hgen]
      cases hsc : st.currentScene with
      | none => dsimp only; exact h
      | some scene =>
        dsimp only
        cases hch : scene.choices.get? i with
        | none => exact h
        | some choice =>
          have h3 : StateInv (resolveTurn st scene choice i r) :=
            stateInv_resolveTurn st scene choice i r hst
          unfold turnOutcome
          dsimp only
          split
          · intro st' hst'
            simp only [Option.some.injEq] at hst'
            subst hst'
            exact h3
          · split
            · intro st' hst'
              simp only [Option.some.injEq] at hst'
              subst hst'
              exact h3
            · intro st' hst'
              simp only [Option.some.injEq] at hst'
              subst hst'
              exact h3

lemma engineInv_runSteps (e : Engine) (steps : List Step) (h : EngineInv e) :
    EngineInv (runSteps e steps) := by
  induction steps generalizing e with
  | nil => exact h
  | cons s ss ih =>
    rw [runSteps, List.foldl_cons]
    exact ih _ (engineInv_makeChoice e s.index s.r s.ai s.now h)

lemma engineInv_startGame (repo : RepoRef) (style : String) (commits : List CommitRecord)
    (analysis : CommitAnalysis) (now : Int) (ai : Except String Scene) (r : ℚ) :
    EngineInv (startGame repo style commits analysis now ai r) := by
  unfold startGame
  dsimp only
  split <;>
  · intro st' hst'
    simp only [Option.some.injEq] at hst'
    subst hst'
    exact ⟨show (1:Int) ≤ 100 by decide, show (100:Int) ≤ 100 by decide,
      show (1:Nat) ≤ 1 by decide, show (1:Nat) ≤ 10 by decide,
      List.nodup_nil, show (0:Nat) ≤ 8 by decide⟩

/-! ### Claims C4 and C8: the makeChoice transition -/

/-- When all guards pass, `makeChoice` is the resolved turn. -/
lemma makeChoice_valid (e : Engine) (st : GameState) (scene : Scene) (choice : Choice)
    (index : Nat) (r : Rand) (ai : Except String Scene) (now : Int)
    (hst : e.state = some st) (hgen : e.generating = false)
    (hscene : st.currentScene = some scene) (hchoice : scene.choices.get? index = some choice) :
    makeChoice e index r ai now = turnOutcome st scene choice index r ai now := by
  obtain ⟨est, gen⟩ := e
  dsimp only at hst hgen
  subst hst
  subst hgen
  unfold makeChoice
  dsimp only
  rw [hscene]
  dsimp only
  rw [hchoice]
  simp

/-- C8: a `makeChoice` call made while a scene generation is in flight, or
with no game state, or with no current scene, or whose selection does not
correspond to an existing choice of the current scene, is a no-op: the
engine (hence the whole GameState) is unchanged and no scene request is
issued. -/
theorem makeChoice_noop_guards (e : Engine) (index : Nat) (r : Rand)
    (ai : Except String Scene) (now : Int)
    (h : e.generating = true ∨ e.state = none ∨
      (∃ st, e.state = some st ∧ (st.currentScene = none ∨
        ∃ scene, st.currentScene = some scene ∧ scene.choices.get? index = none))) :
    makeChoice e index r ai now = ⟨e, false⟩ := by
  obtain ⟨est, gen⟩ := e
  unfold makeChoice
  cases est with
  | none => rfl
  | some st =>
    dsimp only
    cases gen with
    | true => rfl
    | false =>
      rcases h with hgen | hnone | ⟨st', hst', hrest⟩
      · exact absurd hgen (by simp)
      · exact absurd hnone (by simp)
      · dsimp only at hst'
        have hstEq : st = st' := by injection hst'
        subst hstEq
        rcases hrest with hsc | ⟨scene, hsc, hch⟩
        · rw [hsc]; simp
        · rw [hsc]
          dsimp only
          rw [hch]
          simp

/-- A concrete guard-failure fixture: an engine with a generation in flight. -/
def wBusyEngine : Engine :=
  ⟨some (createInitialState ⟨"octo", "demo"⟩ "dnd" [wCommitA] emptyAnalysis 0), true⟩

/-- Witness for C8: a call while a generation is in flight is a no-op. -/
theorem makeChoice_noop_guards_witness :
    wBusyEngine.generating = true ∧
    makeChoice wBusyEngine 0 ⟨1/2, 1/2, 1/2, 1/2⟩ (.error "x") 5 = ⟨wBusyEngine, false⟩ :=
  ⟨rfl, makeChoice_noop_guards wBusyEngine 0 ⟨1/2, 1/2, 1/2, 1/2⟩ (.error "x") 5 (Or.inl rfl)⟩

/-- C4: a guard-passing `makeChoice` transitions to the epilogue exactly
when, after advancing, `commitIndex` sits at the last index and the history
(now one entry longer) has more than one entry; the epilogue scene has
`isEpilogue = true` and exactly 3 meta-choices, and the epilogue branch
issues no scene request. -/
theorem epilogue_transition_exact (e : Engine) (st : GameState) (scene : Scene) (choice : Choice)
    (index : Nat) (r : Rand) (ai : Except String Scene) (now : Int)
    (hst : e.state = some st) (hgen : e.generating = false)
    (hscene : st.currentScene = some scene) (hchoice : scene.choices.get? index = some choice) :
    (((resolveTurn st scene choice index r).commitIndex = st.commits.length - 1 ∧
        1 < (resolveTurn st scene choice index r).history.length) ↔
      makeChoice e index r ai now =
        ⟨⟨some { resolveTurn st scene choice index r with
                  currentScene := some (epilogueScene (resolveTurn st scene choice index r)) },
          false⟩, false⟩) ∧
    (epilogueScene (resolveTurn st scene choice index r)).isEpilogue = some true ∧
    (epilogueScene (resolveTurn st scene choice index r)).choices.length = 3 ∧
    (resolveTurn st scene choice index r).history.length = st.history.length + 1 := by
  rw [makeChoice_valid e st scene choice index r ai now hst hgen hscene hchoice]
  refine ⟨?_, rfl, rfl, by simp⟩
  have hcommits := resolveTurn_commits st scene choice index r
  have hidx := resolveTurn_commitIndex st scene choice index r
  constructor
  · rintro ⟨h1, h2⟩
    unfold turnOutcome
    dsimp only
    rw [if_pos ⟨by rw [hcommits]; omega, h2⟩]
  · intro heq
    by_contra hneg
    unfold turnOutcome at heq
    dsimp only at heq
    rw [if_neg (by rw [hcommits, hidx] at *; omega)] at heq
    cases hnext : nextSceneOf ai (resolveTurn st scene choice index r).commits
        (resolveTurn st scene choice index r).commitIndex
        (resolveTurn st scene choice index r).style r.flourish with
    | some sc =>
      rw [hnext] at heq
      exact absurd (congrArg MCResult.requested heq) (by simp)
    | none =>
      rw [hnext] at heq
      exact absurd (congrArg MCResult.requested heq) (by simp)

/-! ### Claims C5, C6, C7: stats, levels and inventory -/

/-- C5: along every sequence of `makeChoice` calls from a started game
(initial hp = maxHp = 100), HP stays in [1, maxHp]; and the HP delta rule:
on a fix-like commit the new HP is the old one plus -10 for option 0, +5 for
option 2, 0 otherwise, clamped to [1, maxHp]; on any other commit the HP
block leaves the state untouched. -/
theorem hp_bounds_and_delta (repo : RepoRef) (style : String) (commits : List CommitRecord)
    (analysis : CommitAnalysis) (now : Int) (ai0 : Except String Scene) (r0 : ℚ)
    (steps : List Step) (st : GameState)
    (h : (runSteps (startGame repo style commits analysis now ai0 r0) steps).state = some st) :
    (1 ≤ st.hp ∧ st.hp ≤ st.maxHp) ∧
    (∀ (s : GameState) (idx : Nat),
      (fixConseqTest (commitMsg s) = true →
        (applyHpDelta s idx).hp =
          max 1 (min s.maxHp (s.hp + (if idx == 0 then (-10 : Int) else if idx == 2 then 5 else 0)))) ∧
      (fixConseqTest (commitMsg s) = false → applyHpDelta s idx = s)) := by
  constructor
  · have hinv := engineInv_runSteps _ steps
      (engineInv_startGame repo style commits analysis now ai0 r0) st h
    exact ⟨hinv.1, hinv.2.1⟩
  · intro s idx
    constructor
    · intro hfix
      unfold applyHpDelta
      dsimp only
      rw [if_pos hfix]
    · intro hfix
      unfold applyHpDelta
      dsimp only
      rw [if_neg (by simp [hfix])]

/-- The concrete analysis of the one-commit fixture. -/
def wAnalysisA : CommitAnalysis := (analyzeCommits [wCommitA]).getD emptyAnalysis

/-- A default game state, used only to extract concrete results. -/
def emptyState : GameState := createInitialState ⟨"", ""⟩ "dnd" [] emptyAnalysis 0

/-- A concrete started engine (AI down, so the first scene is the fallback). -/
def wStartEngineA : Engine :=
  startGame ⟨"octo", "demo"⟩ "dnd" [wCommitA] wAnalysisA 0 (.error "down") 0

/-- The concrete started state of `wStartEngineA`. -/
def wStartStateA : GameState := (wStartEngineA.state).getD emptyState

/-- Witness for C5 on the concrete started game after zero choices. -/
theorem hp_bounds_and_delta_witness :
    (runSteps wStartEngineA []).state = some wStartStateA ∧
    (1 ≤ wStartStateA.hp ∧ wStartStateA.hp ≤ wStartStateA.maxHp) :=
  ⟨rfl, (hp_bounds_and_delta ⟨"octo", "demo"⟩ "dnd" [wCommitA] wAnalysisA 0
    (.error "down") 0 [] wStartStateA rfl).1⟩

/-- C7: along every sequence of `makeChoice` calls from a started game the
inventory never holds duplicates and never exceeds 8 entries; an item is
added only when the commit subject matches the feat pattern and the random
draw exceeds 0.6; and the addition is skipped when the drawn item is already
held or the inventory is at capacity. -/
theorem inventory_invariants (repo : RepoRef) (style : String) (commits : List CommitRecord)
    (analysis : CommitAnalysis) (now : Int) (ai0 : Except String Scene) (r0 : ℚ)
    (steps : List Step) (st : GameState)
    (h : (runSteps (startGame repo style commits analysis now ai0 r0) steps).state = some st) :
    (st.inventory.Nodup ∧ st.inventory.length ≤ 8) ∧
    (∀ (s : GameState) (r : Rand),
      ((applyInventory s r).inventory ≠ s.inventory →
        featConseqTest (commitMsg s) = true ∧ 3/5 < r.inv) ∧
      (∀ item : String, featConseqTest (commitMsg s) = true → 3/5 < r.inv →
        jsArrayGet (itemsFor s.style) ⌊r.item * ((itemsFor s.style).length : ℚ)⌋ = some item →
        item ∈ s.inventory ∨ 8 ≤ s.inventory.length →
        (applyInventory s r).inventory = s.inventory)) := by
  constructor
  · have hinv := engineInv_runSteps _ steps
      (engineInv_startGame repo style commits analysis now ai0 r0) st h
    exact ⟨hinv.2.2.2.2.1, hinv.2.2.2.2.2⟩
  · intro s r
    constructor
    · intro hne
      by_contra hcon
      apply hne
      unfold applyInventory
      dsimp only
      rw [if_neg hcon]
    · intro item hfeat hdraw hget hskip
      unfold applyInventory
      dsimp only
      rw [if_pos ⟨hfeat, hdraw⟩, hget]
      dsimp only
      rw [if_neg ?_]
      rintro ⟨hnotmem, hlt⟩
      rcases hskip with hmem | hcap
      · exact hnotmem hmem
      · omega

/-- Witness for C7 on the concrete started game after zero choices. -/
theorem inventory_invariants_witness :
    (runSteps wStartEngineA []).state = some wStartStateA ∧
    (wStartStateA.inventory.Nodup ∧ wStartStateA.inventory.length ≤ 8) :=
  ⟨rfl, (inventory_invariants ⟨"octo", "demo"⟩ "dnd" [wCommitA] wAnalysisA 0
    (.error "down") 0 [] wStartStateA rfl).1⟩

/-- The concrete fallback scene of the dnd fixture. -/
def wSceneA : Scene := generateFallbackScene wCommitA "dnd" 0 1 0

/-- The first dnd fallback choice. -/
def wChoiceA : Choice := ⟨"A", "Draw your sword and face what lies ahead"⟩

/-- A in-progress three-commit game: cursor on the middle commit, one turn
already resolved, awaiting a choice. -/
def wStateC4 : GameState :=
  { createInitialState ⟨"octo", "demo"⟩ "dnd" [wCommitA, wCommitA, wCommitA] wAnalysisA 0 with
    commitIndex := 1,
    history := [⟨"intro", "onward", some wCommitA.sha⟩],
    currentScene := some wSceneA }

/-- The engine holding `wStateC4`. -/
def wEngineC4 : Engine := ⟨some wStateC4, false⟩

/-- A fixed random draw tuple. -/
def wRandA : Rand := ⟨1/2, 1/2, 1/2, 1/2⟩

/-- Witness for C4: the second choice of a three-commit game hits the
epilogue conditions, and the epilogue scene is well-formed. -/
theorem epilogue_transition_exact_witness :
    (wEngineC4.state = some wStateC4 ∧ wEngineC4.generating = false ∧
     wStateC4.currentScene = some wSceneA ∧ wSceneA.choices.get? 0 = some wChoiceA) ∧
    ((epilogueScene (resolveTurn wStateC4 wSceneA wChoiceA 0 wRandA)).isEpilogue = some true ∧
     (epilogueScene (resolveTurn wStateC4 wSceneA wChoiceA 0 wRandA)).choices.length = 3 ∧
     (resolveTurn wStateC4 wSceneA wChoiceA 0 wRandA).history.length =
       wStateC4.history.length + 1) :=
  ⟨⟨rfl, rfl, rfl, rfl⟩,
    (epilogue_transition_exact wEngineC4 wStateC4 wSceneA wChoiceA 0 wRandA
      (.error "x") 7 rfl rfl rfl rfl).2.1,
    (epilogue_transition_exact wEngineC4 wStateC4 wSceneA wChoiceA 0 wRandA
      (.error "x") 7 rfl rfl rfl rfl).2.2.1,
    (epilogue_transition_exact wEngineC4 wStateC4 wSceneA wChoiceA 0 wRandA
      (.error "x") 7 rfl rfl rfl rfl).2.2.2⟩

/-- The XP gain `20 + Math.floor(Math.random() * 30)` lies in 20..49. -/
lemma xpGain_bounds (q : ℚ) (h0 : 0 ≤ q) (h1 : q < 1) :
    20 ≤ 20 + ⌊q * 30⌋ ∧ 20 + ⌊q * 30⌋ ≤ 49 := by
  have hf0 : (0:Int) ≤ ⌊q * 30⌋ := Int.floor_nonneg.mpr (by positivity)
  have hf1 : ⌊q * 30⌋ < 30 := by
    rw [Int.floor_lt]
    push_cast
    nlinarith
  omega

/-- The post-guard `makeChoice` result state agrees with the resolved turn
on the xp, level and maxHp fields. -/
lemma turnOutcome_stats (st : GameState) (scene : Scene) (choice : Choice) (index : Nat)
    (r : Rand) (ai : Except String Scene) (now : Int) (st' : GameState)
    (h : (turnOutcome st scene choice index r ai now).engine.state = some st') :
    st'.xp = (resolveTurn st scene choice index r).xp ∧
    st'.level = (resolveTurn st scene choice index r).level ∧
    st'.maxHp = (resolveTurn st scene choice index r).maxHp := by
  unfold turnOutcome at h
  dsimp only at h
  split at h
  · simp only [Option.some.injEq] at h
    subst h
    exact ⟨rfl, rfl, rfl⟩
  · split at h <;>
    · simp only [Option.some.injEq] at h
      subst h
      exact ⟨rfl, rfl, rfl⟩

@[simp] lemma resolveTurn_xp (st : GameState) (sc : Scene) (ch : Choice) (i : Nat) (r : Rand) :
    (resolveTurn st sc ch i r).xp = st.xp + (20 + ⌊r.xp * 30⌋) := by
  simp [resolveTurn]

lemma resolveTurn_level (st : GameState) (sc : Scene) (ch : Choice) (i : Nat) (r : Rand) :
    (resolveTurn st sc ch i r).level =
      (applyXpAndLevel { st with history := st.history ++
        [⟨sc.narrative, ch.text, (st.commits.get? st.commitIndex).map (·.sha)⟩] } r).level := by
  simp [resolveTurn]

lemma resolveTurn_maxHp (st : GameState) (sc : Scene) (ch : Choice) (i : Nat) (r : Rand) :
    (resolveTurn st sc ch i r).maxHp =
      (applyXpAndLevel { st with history := st.history ++
        [⟨sc.narrative, ch.text, (st.commits.get? st.commitIndex).map (·.sha)⟩] } r).maxHp := by
  simp [resolveTurn]

/-- C6: on every guard-passing `makeChoice`, XP increases by a value in
20..49; the level increments by exactly one exactly when the resulting XP
reaches the current level's threshold `XP_PER_LEVEL[level]` and level < 10,
in which case maxHp grows by 10 and (inside the XP block) hp is healed by 20
capped at the new maxHp; `nextThreshold` agrees with the literal threshold
list on levels 1..9; and along every run the level stays in [1, 10]. -/
theorem xp_level_progression (e : Engine) (st st' : GameState) (scene : Scene) (choice : Choice)
    (index : Nat) (r : Rand) (ai : Except String Scene) (now : Int)
    (hst : e.state = some st) (hgen : e.generating = false)
    (hscene : st.currentScene = some scene) (hchoice : scene.choices.get? index = some choice)
    (hres : (makeChoice e index r ai now).engine.state = some st')
    (hr0 : 0 ≤ r.xp) (hr1 : r.xp < 1) :
    (st'.xp = st.xp + (20 + ⌊r.xp * 30⌋) ∧
     20 ≤ 20 + ⌊r.xp * 30⌋ ∧ 20 + ⌊r.xp * 30⌋ ≤ 49 ∧
     (st'.level = st.level + 1 ↔
       nextThreshold st.level ≤ st.xp + (20 + ⌊r.xp * 30⌋) ∧ st.level < 10) ∧
     (nextThreshold st.level ≤ st.xp + (20 + ⌊r.xp * 30⌋) ∧ st.level < 10 →
       st'.maxHp = st.maxHp + 10) ∧
     (¬ (nextThreshold st.level ≤ st.xp + (20 + ⌊r.xp * 30⌋) ∧ st.level < 10) →
       st'.level = st.level ∧ st'.maxHp = st.maxHp)) ∧
    (∀ (s : GameState) (r2 : Rand),
      nextThreshold s.level ≤ s.xp + (20 + ⌊r2.xp * 30⌋) ∧ s.level < 10 →
        (applyXpAndLevel s r2).level = s.level + 1 ∧
        (applyXpAndLevel s r2).maxHp = s.maxHp + 10 ∧
        (applyXpAndLevel s r2).hp = min (s.hp + 20) (s.maxHp + 10)) ∧
    (∀ lvl : Nat, 1 ≤ lvl → lvl ≤ 9 → nextThreshold lvl = XP_PER_LEVEL.getD lvl 0) ∧
    (∀ (repo : RepoRef) (style2 : String) (commits2 : List CommitRecord)
       (analysis2 : CommitAnalysis) (now2 : Int) (ai2 : Except String Scene) (r2 : ℚ)
       (steps : List Step) (stq : GameState),
       (runSteps (startGame repo style2 commits2 analysis2 now2 ai2 r2) steps).state = some stq →
       1 ≤ stq.level ∧ stq.level ≤ 10) := by
  refine ⟨?_, ?_, ?_, ?_⟩
  · rw [makeChoice_valid e st scene choice index r ai now hst hgen hscene hchoice] at hres
    obtain ⟨hxp, hlv, hmx⟩ := turnOutcome_stats st scene choice index r ai now st' hres
    have hlvl1 : ({ st with history := st.history ++
      [⟨scene.narrative, choice.text, (st.commits.get? st.commitIndex).map (·.sha)⟩] } : GameState).level = st.level := rfl
    have hmax1 : ({ st with history := st.history ++
      [⟨scene.narrative, choice.text, (st.commits.get? st.commitIndex).map (·.sha)⟩] } : GameState).maxHp = st.maxHp := rfl
    refine ⟨by rw [hxp, resolveTurn_xp],
      (xpGain_bounds r.xp hr0 hr1).1, (xpGain_bounds r.xp hr0 hr1).2, ?_, ?_, ?_⟩
    · by_cases hc : nextThreshold st.level ≤ st.xp + (20 + ⌊r.xp * 30⌋) ∧ st.level < 10
      · have hup := applyXpAndLevel_up { st with history := st.history ++
          [⟨scene.narrative, choice.text, (st.commits.get? st.commitIndex).map (·.sha)⟩] } r hc
        constructor
        · intro _; exact hc
        · intro _
          rw [hlv, resolveTurn_level, hup.1, hlvl1]
      · have hno := applyXpAndLevel_no_up { st with history := st.history ++
          [⟨scene.narrative, choice.text, (st.commits.get? st.commitIndex).map (·.sha)⟩] } r hc
        constructor
        · intro hcontr
          rw [hlv, resolveTurn_level, hno.1, hlvl1] at hcontr
          omega
        · intro hcond; exact absurd hcond hc
    · intro hc
      have hup := applyXpAndLevel_up { st with history := st.history ++
        [⟨scene.narrative, choice.text, (st.commits.get? st.commitIndex).map (·.sha)⟩] } r hc
      rw [hmx, resolveTurn_maxHp, hup.2.1, hmax1]
    · intro hc
      have hno := applyXpAndLevel_no_up { st with history := st.history ++
        [⟨scene.narrative, choice.text, (st.commits.get? st.commitIndex).map (·.sha)⟩] } r hc
      exact ⟨by rw [hlv, resolveTurn_level, hno.1, hlvl1],
             by rw [hmx, resolveTurn_maxHp, hno.2.1, hmax1]⟩
  · intro s r2 hc
    exact applyXpAndLevel_up s r2 hc
  · intro lvl h1 h2
    interval_cases lvl <;> rfl
  · intro repo style2 commits2 analysis2 now2 ai2 r2 steps stq hq
    have hinv := engineInv_runSteps _ steps
      (engineInv_startGame repo style2 commits2 analysis2 now2 ai2 r2) stq hq
    exact ⟨hinv.2.2.1, hinv.2.2.2.1⟩

/-- The concrete state after one choice on the three-commit fixture (the
epilogue branch is taken: cursor 1 advances to 2, the last index, with two
history entries). -/
def wStC6 : GameState :=
  { resolveTurn wStateC4 wSceneA wChoiceA 0 wRandA with
    currentScene := some (epilogueScene (resolveTurn wStateC4 wSceneA wChoiceA 0 wRandA)) }

/-- Witness for C6 on the three-commit fixture. -/
theorem xp_level_progression_witness :
    (wEngineC4.state = some wStateC4 ∧ wEngineC4.generating = false ∧
     wStateC4.currentScene = some wSceneA ∧ wSceneA.choices.get? 0 = some wChoiceA ∧
     (makeChoice wEngineC4 0 wRandA (.error "x") 7).engine.state = some wStC6 ∧
     (0:ℚ) ≤ wRandA.xp ∧ wRandA.xp < 1) ∧
    (wStC6.xp = wStateC4.xp + (20 + ⌊wRandA.xp * 30⌋) ∧
     20 ≤ 20 + ⌊wRandA.xp * 30⌋ ∧ 20 + ⌊wRandA.xp * 30⌋ ≤ 49) := by
  have hcond : (resolveTurn wStateC4 wSceneA wChoiceA 0 wRandA).commits.length - 1 ≤
      (resolveTurn wStateC4 wSceneA wChoiceA 0 wRandA).commitIndex ∧
      1 < (resolveTurn wStateC4 wSceneA wChoiceA 0 wRandA).history.length := by
    rw [resolveTurn_commits, resolveTurn_commitIndex, resolveTurn_history]
    constructor
    · show [wCommitA, wCommitA, wCommitA].length - 1 ≤ min (1 + 1) ([wCommitA, wCommitA, wCommitA].length - 1)
      simp
    · simp [wStateC4]
  have heq : makeChoice wEngineC4 0 wRandA (.error "x") 7 =
      ⟨⟨some wStC6, false⟩, false⟩ := by
    rw [makeChoice_valid wEngineC4 wStateC4 wSceneA wChoiceA 0 wRandA (.error "x") 7
      rfl rfl rfl rfl]
    unfold turnOutcome
    dsimp only
    rw [if_pos hcond]
    rfl
  have hres : (makeChoice wEngineC4 0 wRandA (.error "x") 7).engine.state = some wStC6 := by
    rw [heq]
  have happ := xp_level_progression wEngineC4 wStateC4 wStC6 wSceneA wChoiceA 0 wRandA
    (.error "x") 7 rfl rfl rfl rfl hres (by norm_num [wRandA]) (by norm_num [wRandA])
  exact ⟨⟨rfl, rfl, rfl, rfl, hres, by norm_num [wRandA], by norm_num [wRandA]⟩,
    happ.1.1, happ.1.2.1, happ.1.2.2.1⟩

/-! ## Claim C2: the save/load round trip (storage.js + story-engine.js)

JS runtime values are modelled by `JSVal` (including `undefined` and `Date`
objects); pure JSON trees by `JVal`.  `JSON.stringify` followed by
`JSON.parse` is modelled structurally: `toJson` performs stringify's
conversions (a `Date` becomes its ISO string via `toJSON`, `undefined`
object entries are dropped, `undefined` array entries become `null`) and
`ofJson` is the trivial re-embedding performed by parse.  The string layer
itself is composed away: `parse (stringify v)` is `ofJson (toJson v)`. -/

inductive JVal where
  | jnull : JVal
  | jbool : Bool → JVal
  | jnum : ℚ → JVal
  | jstr : String → JVal
  | jarr : List JVal → JVal
  | jobj : List (String × JVal) → JVal

inductive JSVal where
  | null : JSVal
  | undef : JSVal
  | bool : Bool → JSVal
  | num : ℚ → JSVal
  | str : String → JSVal
  | date : Int → JSVal
  | arr : List JSVal → JSVal
  | obj : List (String × JSVal) → JSVal

/-- Left-pad a natural number with zeros to the given width. -/
def padNum (width n : Nat) : String :=
  let s := toString n
  if s.length < width then String.mk (List.replicate (width - s.length) '0') ++ s else s

/-- `Date.prototype.toISOString` for a millisecond timestamp: UTC civil date
via the standard days-from-epoch algorithm, "YYYY-MM-DDTHH:mm:ss.sssZ"
(expanded ±YYYYYY years outside 0..9999). -/
def isoOfTimestamp (t : Int) : String :=
  let days := t.ediv 86400000
  let msOfDay := (t.emod 86400000).toNat
  let hh := msOfDay / 3600000
  let mm := msOfDay % 3600000 / 60000
  let ss := msOfDay % 60000 / 1000
  let mss := msOfDay % 1000
  let z := days + 719468
  let era := z.ediv 146097
  let doe := (z.emod 146097).toNat
  let yoe := (doe - doe / 1460 + doe / 36524 - doe / 146096) / 365
  let doy := doe - (365 * yoe + yoe / 4 - yoe / 100)
  let mp := (5 * doy + 2) / 153
  let d := doy - (153 * mp + 2) / 5 + 1
  let m := if mp < 10 then mp + 3 else mp - 9
  let y : Int := (yoe : Int) + era * 400 + (if m ≤ 2 then 1 else 0)
  let ystr :=
    if y < 0 then "-" ++ padNum 6 (-y).toNat
    else if 9999 < y then "+" ++ padNum 6 y.toNat
    else padNum 4 y.toNat
  ystr ++ "-" ++ padNum 2 m ++ "-" ++ padNum 2 d ++ "T" ++
    padNum 2 hh ++ ":" ++ padNum 2 mm ++ ":" ++ padNum 2 ss ++ "." ++ padNum 3 mss ++ "Z"

mutual

/-- `JSON.stringify` conversions; `none` is an undefined result (dropped). -/
def toJson : JSVal → Option JVal
  | .null => some .jnull
  | .undef => none
  | .bool b => some (.jbool b)
  | .num q => some (.jnum q)
  | .str s => some (.jstr s)
  | .date t => some (.jstr (isoOfTimestamp t))
  | .arr xs => some (.jarr (toJsonArr xs))
  | .obj fs => some (.jobj (toJsonObj fs))

/-- Array entries: an undefined entry becomes `null`. -/
def toJsonArr : List JSVal → List JVal
  | [] => []
  | x :: xs => ((toJson x).getD .jnull) :: toJsonArr xs

/-- Object entries: an undefined entry is dropped. -/
def toJsonObj : List (String × JSVal) → List (String × JVal)
  | [] => []
  | (k, v) :: fs =>
    (match toJson v with
      | some j => [(k, j)]
      | none => []) ++ toJsonObj fs

end

mutual

/-- `JSON.parse`: the trivial re-embedding of a JSON tree. -/
def ofJson : JVal → JSVal
  | .jnull => .null
  | .jbool b => .bool b
  | .jnum q => .num q
  | .jstr s => .str s
  | .jarr xs => .arr (ofJsonArr xs)
  | .jobj fs => .obj (ofJsonObj fs)

def ofJsonArr : List JVal → List JSVal
  | [] => []
  | x :: xs => ofJson x :: ofJsonArr xs

def ofJsonObj : List (String × JVal) → List (String × JSVal)
  | [] => []
  | (k, v) :: fs => (k, ofJson v) :: ofJsonObj fs

end

mutual

/-- Deep (structural) equality of JS values; a `Date` is never deep-equal to
a string.  Object keys are compared in order — sound here because the round
trip preserves serialization order. -/
def deepEq : JSVal → JSVal → Bool
  | .null, .null => true
  | .undef, .undef => true
  | .bool a, .bool b => a == b
  | .num a, .num b => a == b
  | .str a, .str b => a == b
  | .date a, .date b => a == b
  | .arr a, .arr b => deepEqArr a b
  | .obj a, .obj b => deepEqObj a b
  | _, _ => false

def deepEqArr : List JSVal → List JSVal → Bool
  | [], [] => true
  | x :: xs, y :: ys => deepEq x y && deepEqArr xs ys
  | _, _ => false

def deepEqObj : List (String × JSVal) → List (String × JSVal) → Bool
  | [], [] => true
  | (k1, v1) :: fs, (k2, v2) :: gs => k1 == k2 && deepEq v1 v2 && deepEqObj fs gs
  | _, _ => false

end

/-- `JSON.parse(JSON.stringify(v))` for a serializable value. -/
def roundTrip (v : JSVal) : JSVal :=
  match toJson v with
  | some j => ofJson j
  | none => .null

/-! ### The JS object layout of the game state -/

/-- A nullable string field (`login`/`avatar` are `null`, never undefined). -/
def optStrJS : Option String → JSVal
  | some s => .str s
  | none => .null

/-- The JS object a parsed commit is (github.js `parseCommit`): note the
`date` field is a `Date` holding the same instant as `timestamp`. -/
def commitToJS (c : CommitRecord) : JSVal :=
  .obj [("sha", .str c.sha), ("shortSha", .str c.shortSha), ("message", .str c.message),
        ("subject", .str c.subject), ("body", .str c.body),
        ("author", .obj [("name", .str c.authorName), ("login", optStrJS c.authorLogin),
                         ("avatar", optStrJS c.authorAvatar)]),
        ("date", .date c.timestamp), ("hour", .num c.hour.val), ("dayOfWeek", .num c.dayOfWeek),
        ("timestamp", .num c.timestamp), ("stats", .null)]

def musicToJS (m : MusicParams) : JSVal :=
  .obj [("bpm", .num m.bpm), ("voices", .num m.voices), ("mode", .str m.mode),
        ("complexity", .num m.complexity), ("energy", .num m.energy)]

def analysisToJS (a : CommitAnalysis) : JSVal :=
  .obj [("totalCommits", .num a.totalCommits), ("authors", .arr (a.authors.map .str)),
        ("authorCount", .num a.authorCount), ("peakHour", .num a.peakHour),
        ("avgMsgLen", .num a.avgMsgLen), ("fixRatio", .num a.fixRatio),
        ("featRatio", .num a.featRatio), ("refactorRatio", .num a.refactorRatio),
        ("commitsPerDay", .num a.commitsPerDay), ("daySpan", .num a.daySpan),
        ("hashSeed", .num a.hashSeed), ("music", musicToJS a.music)]

def choiceToJS (c : Choice) : JSVal := .obj [("label", .str c.label), ("text", .str c.text)]

/-- A scene object; the `isEpilogue` key is present only when set. -/
def sceneToJS (s : Scene) : JSVal :=
  .obj ([("narrative", .str s.narrative), ("choices", .arr (s.choices.map choiceToJS))] ++
    (match s.isEpilogue with
      | some b => [("isEpilogue", .bool b)]
      | none => []))

/-- A history entry; `commitSha` is `undefined` when the commit was missing. -/
def historyEntryToJS (h : HistoryEntry) : JSVal :=
  .obj [("narrative", .str h.narrative), ("choice", .str h.choice),
        ("commitSha", match h.commitSha with
          | some s => .str s
          | none => .undef)]

def questToJS (q : QuestEntry) : JSVal :=
  .obj [("text", .str q.text), ("chapter", .num q.chapter)]

def optSceneJS : Option Scene → JSVal
  | some s => sceneToJS s
  | none => .null

def optNumJS : Option Int → JSVal
  | some n => .num n
  | none => .null

/-- The full JS object of a `GameState`, in `createInitialState` key order. -/
def gameStateToJS (st : GameState) : JSVal :=
  .obj [("repo", .obj [("owner", .str st.repo.owner), ("repo", .str st.repo.repo)]),
        ("style", .str st.style),
        ("commits", .arr (st.commits.map commitToJS)),
        ("analysis", analysisToJS st.analysis),
        ("commitIndex", .num st.commitIndex),
        ("chapter", .num st.chapter),
        ("hp", .num st.hp), ("maxHp", .num st.maxHp), ("xp", .num st.xp), ("level", .num st.level),
        ("inventory", .arr (st.inventory.map .str)),
        ("questLog", .arr (st.questLog.map questToJS)),
        ("history", .arr (st.history.map historyEntryToJS)),
        ("currentScene", optSceneJS st.currentScene),
        ("startedAt", .num st.startedAt),
        ("savedAt", optNumJS st.savedAt)]

/-! ### The storage model (storage.js) -/

/-- storage.js save-slot key. -/
def saveKeyOf (slot : String) : String := "gitquest:save:" ++ slot

/-- `localStorage.setItem`: overwrite in place, else append. -/
def setItem : List (String × JVal) → String → JVal → List (String × JVal)
  | [], k, v => [(k, v)]
  | (k0, v0) :: rest, k, v =>
    if k0 == k then (k, v) :: rest else (k0, v0) :: setItem rest k v

/-- `localStorage.getItem` (parsed). -/
def getItem (store : List (String × JVal)) (k : String) : Option JVal :=
  match store with
  | [] => none
  | (k0, v) :: rest => if k0 == k then some v else getItem rest k

/-- Spread update `{...state, savedAt: v}`: the existing key keeps its
position, its value replaced. -/
def objSetKey : List (String × JSVal) → String → JSVal → List (String × JSVal)
  | [], k, v => [(k, v)]
  | (k0, v0) :: rest, k, v =>
    if k0 == k then (k, v) :: rest else (k0, v0) :: objSetKey rest k v

def jsSpreadSet (o : JSVal) (k : String) (v : JSVal) : JSVal :=
  match o with
  | .obj fs => .obj (objSetKey fs k v)
  | other => other

/-- storage.js `saveGame`: stringify `{...state, savedAt: Date.now()}` under
the slot key (state objects always stringify, so the `none` arm is inert). -/
def storageSaveGame (store : List (String × JVal)) (slot : String) (stateJS : JSVal)
    (now : Int) : List (String × JVal) :=
  match toJson (jsSpreadSet stateJS "savedAt" (.num now)) with
  | some j => setItem store (saveKeyOf slot) j
  | none => store

/-- storage.js `loadGame`: parse the stored blob; `none` is the null /
not-found result. -/
def storageLoadGame (store : List (String × JVal)) (slot : String) : Option JSVal :=
  (getItem store (saveKeyOf slot)).map ofJson

/-- story-engine.js `saveGame`: stamp `savedAt`, then store; returns the
mutated live state and the new store. -/
def engineSaveGame (st : GameState) (store : List (String × JVal)) (slot : String)
    (now : Int) : GameState × List (String × JVal) :=
  let live := { st with savedAt := some now }
  (live, storageSaveGame store slot (gameStateToJS live) now)

/-- story-engine.js `loadGame`: the loaded blob replaces the live state
wholesale (`none` models the "Save not found" throw). -/
def engineLoadGame (store : List (String × JVal)) (slot : String) : Option JSVal :=
  storageLoadGame store slot

/-- JS object member lookup. -/
def lookupField : List (String × JSVal) → String → Option JSVal
  | [], _ => none
  | (k0, v) :: fs, k => if k0 == k then some v else lookupField fs k

def objLookup (v : JSVal) (k : String) : Option JSVal :=
  match v with
  | .obj fs => lookupField fs k
  | _ => none

/-- The loaded blob after saving the concrete started state to a slot. -/
def cexLoadedC2 : JSVal :=
  (engineLoadGame (engineSaveGame wStartStateA [] "slot1" 1700000000123).2 "slot1").getD .null

/-- C2 counterexample: saving the (reachable) started one-commit game and
loading it back does NOT reproduce a deep-equal GameState: the commit `date`
fields are `Date` objects before saving and ISO strings after loading
(`JSON.parse` does not revive dates). -/
theorem saveLoad_deepEq_counterexample :
    engineLoadGame (engineSaveGame wStartStateA [] "slot1" 1700000000123).2 "slot1" =
      some cexLoadedC2 ∧
    deepEq cexLoadedC2
      (gameStateToJS { wStartStateA with savedAt := some 1700000000123 }) = false := by
  constructor
  · rfl
  · rfl

lemma getItem_setItem (store : List (String × JVal)) (k : String) (v : JVal) :
    getItem (setItem store k v) k = some v := by
  induction store with
  | nil => simp [setItem, getItem]
  | cons kv rest ih =>
    obtain ⟨k0, v0⟩ := kv
    by_cases h : k0 == k
    · simp [setItem, getItem, h]
    · simp [setItem, getItem, h, ih]

/-- String arrays survive the JSON round trip unchanged. -/
lemma strs_roundtrip (l : List String) :
    ofJsonArr (toJsonArr (l.map .str)) = l.map .str := by
  induction l with
  | nil => rfl
  | cons s t ih => simp [toJsonArr, toJson, ofJsonArr, ofJson, ih]

/-- Does a history entry carry a commit SHA? -/
def hasSha (h : HistoryEntry) : Bool := h.commitSha.isSome

/-- History entries whose `commitSha` is present survive the round trip. -/
lemma hist_roundtrip (l : List HistoryEntry) (hl : l.all hasSha = true) :
    ofJsonArr (toJsonArr (l.map historyEntryToJS)) = l.map historyEntryToJS := by
  induction l with
  | nil => rfl
  | cons h t ih =>
    simp only [List.all_cons, Bool.and_eq_true] at hl
    obtain ⟨hs, ht⟩ := hl
    obtain ⟨s, hsEq⟩ := Option.isSome_iff_exists.mp hs
    simp [historyEntryToJS, hsEq, toJsonArr, toJson, toJsonObj, ofJsonArr, ofJson,
      ofJsonObj, ih ht]

/-- C2 (amended): saving then loading reproduces the state up to JSON
serialization — the loaded blob equals the round-tripped saved state, in
which `commitIndex`, the stats (hp, maxHp, xp, level, inventory), the
history and the `CommitAnalysis` (taken from the blob, not recomputed) are
preserved exactly, and `savedAt` carries the save timestamp; full deep
equality fails only at the Date fields (see the counterexample). -/
theorem saveLoad_fields_preserved (st : GameState) (store : List (String × JVal))
    (slot : String) (now : Int) (hsha : st.history.all hasSha = true) :
    engineLoadGame (engineSaveGame st store slot now).2 slot =
        some (roundTrip (gameStateToJS { st with savedAt := some now })) ∧
    objLookup (roundTrip (gameStateToJS { st with savedAt := some now })) "commitIndex" =
        some (.num st.commitIndex) ∧
    objLookup (roundTrip (gameStateToJS { st with savedAt := some now })) "hp" =
        some (.num st.hp) ∧
    objLookup (roundTrip (gameStateToJS { st with savedAt := some now })) "maxHp" =
        some (.num st.maxHp) ∧
    objLookup (roundTrip (gameStateToJS { st with savedAt := some now })) "xp" =
        some (.num st.xp) ∧
    objLookup (roundTrip (gameStateToJS { st with savedAt := some now })) "level" =
        some (.num st.level) ∧
    objLookup (roundTrip (gameStateToJS { st with savedAt := some now })) "inventory" =
        some (.arr (st.inventory.map .str)) ∧
    objLookup (roundTrip (gameStateToJS { st with savedAt := some now })) "history" =
        some (.arr (st.history.map historyEntryToJS)) ∧
    objLookup (roundTrip (gameStateToJS { st with savedAt := some now })) "analysis" =
        some (analysisToJS st.analysis) ∧
    objLookup (roundTrip (gameStateToJS { st with savedAt := some now })) "savedAt" =
        some (.num now) := by
  have hspread : jsSpreadSet (gameStateToJS { st with savedAt := some now }) "savedAt"
      (.num now) = gameStateToJS { st with savedAt := some now } := by
    simp [jsSpreadSet, gameStateToJS, objSetKey, optNumJS]
  refine ⟨?_, ?_, ?_, ?_, ?_, ?_, ?_, ?_, ?_, ?_⟩
  · show (getItem (storageSaveGame store slot
      (gameStateToJS { st with savedAt := some now }) now) (saveKeyOf slot)).map ofJson = _
    unfold storageSaveGame
    rw [hspread]
    cases htj : toJson (gameStateToJS { st with savedAt := some now }) with
    | none => simp [gameStateToJS, toJson] at htj
    | some j =>
      rw [getItem_setItem]
      simp [roundTrip, htj]
  · simp [roundTrip, gameStateToJS, toJson, toJsonObj, toJsonArr, ofJson, ofJsonObj,
      ofJsonArr, objLookup, lookupField, analysisToJS, musicToJS]
  · simp [roundTrip, gameStateToJS, toJson, toJsonObj, toJsonArr, ofJson, ofJsonObj,
      ofJsonArr, objLookup, lookupField, analysisToJS, musicToJS]
  · simp [roundTrip, gameStateToJS, toJson, toJsonObj, toJsonArr, ofJson, ofJsonObj,
      ofJsonArr, objLookup, lookupField, analysisToJS, musicToJS]
  · simp [roundTrip, gameStateToJS, toJson, toJsonObj, toJsonArr, ofJson, ofJsonObj,
      ofJsonArr, objLookup, lookupField, analysisToJS, musicToJS]
  · simp [roundTrip, gameStateToJS, toJson, toJsonObj, toJsonArr, ofJson, ofJsonObj,
      ofJsonArr, objLookup, lookupField, analysisToJS, musicToJS]
  · simp [roundTrip, gameStateToJS, toJson, toJsonObj, toJsonArr, ofJson, ofJsonObj,
      ofJsonArr, objLookup, lookupField, analysisToJS, musicToJS, strs_roundtrip]
  · simp [roundTrip, gameStateToJS, toJson, toJsonObj, toJsonArr, ofJson, ofJsonObj,
      ofJsonArr, objLookup, lookupField, analysisToJS, musicToJS,
      hist_roundtrip st.history hsha]
  · simp [roundTrip, gameStateToJS, toJson, toJsonObj, toJsonArr, ofJson, ofJsonObj,
      ofJsonArr, objLookup, lookupField, analysisToJS, musicToJS, strs_roundtrip]
  · cases hcs : st.currentScene with
    | none =>
      simp [roundTrip, gameStateToJS, toJson, toJsonObj, toJsonArr, ofJson, ofJsonObj,
        ofJsonArr, objLookup, lookupField, analysisToJS, musicToJS, hcs, optSceneJS,
        optNumJS, sceneToJS]
    | some sc =>
      simp [roundTrip, gameStateToJS, toJson, toJsonObj, toJsonArr, ofJson, ofJsonObj,
        ofJsonArr, objLookup, lookupField, analysisToJS, musicToJS, hcs, optSceneJS,
        optNumJS, sceneToJS]

/-- Witness for the amended C2 on the concrete started game. -/
theorem saveLoad_fields_preserved_witness :
    wStartStateA.history.all hasSha = true ∧
    objLookup (roundTrip (gameStateToJS { wStartStateA with savedAt := some 99 }))
      "commitIndex" = some (.num wStartStateA.commitIndex) :=
  ⟨rfl, (saveLoad_fields_preserved wStartStateA [] "s" 99 rfl).2.1⟩

end GitQuest
